import Mathlib

/-!
# Shallow embedding of the `spk_schedule_` assignment engine

This file embeds the core of `src/optimization_engine.py` (class
`OptimizationEngine`) and the helpers it uses from `src/data_models.py`
into Lean, and proves the specification claims about it.

Modelling conventions:
* pandas `DataFrame`s of units / routes / schedules are modelled as Lean
  lists of records, in caller-supplied order; row lookup
  `df[df[key] == x].iloc[0]` is modelled as `List.find?`, whose `none`
  case models the `IndexError` raised by `.iloc[0]` on an empty selection
  (surfaced as `Err.notFound` in `Except`-valued functions).
* Python `float` arithmetic is modelled exactly by `Rat`; all numeric
  literals of the source (0.2, 0.8, …) are exact decimal rationals.
* `"HH:MM"` time-of-day strings are modelled by their value in minutes
  (`Int`).  In the source every stored time string is produced by
  `minutes_to_time_str` and consumed by `time_str_to_minutes`, and
  `minutes_to_time_str` / `time_str_to_minutes` round-trip exactly on
  every integer (floor division/modulo), so this encoding is faithful;
  where the source formats a time into a message we apply
  `minutes_to_time_str` to the minute value.
* JSON-encoded lists (`allowed_routes`, `operating_days`) are modelled
  as already-decoded `List String`; `parse_allowed_routes` /
  `parse_operating_days` are the identity on that decoded form.
* `datetime` target dates are modelled by their weekday, the only
  attribute the core reads (via `get_day_name`).
* Python's `list(set(xs))` iterates a set in an unspecified order; it is
  modelled as first-occurrence deduplication (`dedupFirst`).  No claim
  proved below depends on the chosen order.
-/

namespace SpkSchedule

/-- Embeds dataclass `Unit` of `src/data_models.py` (named `TransportUnit`
to avoid clashing with Lean's built-in `Unit`). -/
structure TransportUnit where
  unit_id : String
  name : String
  capacity : Int
  fuel_efficiency : Rat
  operational_cost_per_km : Rat
  status : String
  home_location : String
  last_location : String
  allowed_routes : List String
deriving Repr, DecidableEq

/-- Embeds dataclass `Route` of `src/data_models.py`. -/
structure Route where
  route_id : String
  name : String
  origin : String
  destination : String
  distance_km : Rat
  estimated_time_minutes : Int
  route_type : String
  required_capacity : Int
deriving Repr, DecidableEq

/-- Embeds dataclass `Schedule` of `src/data_models.py`; `departure_time`
is the `"HH:MM"` string modelled in minutes. -/
structure Schedule where
  schedule_id : String
  route_id : String
  departure_time : Int
  operating_days : List String
  priority : Int
deriving Repr, DecidableEq

/-- Embeds dataclass `OperationalParameters` of `src/data_models.py`;
the travel-time dict is an association list keyed by location pairs. -/
structure OperationalParameters where
  turnaround_time_minutes : Int := 30
  minimum_rest_time_minutes : Int := 60
  fuel_price_per_liter : Rat := 12500
  max_working_hours_per_day : Int := 12
  travel_times : List ((String × String) × Int) :=
    [(("Depok", "Baltos"), 60), (("Baltos", "Depok"), 60)]
deriving Repr, DecidableEq

/-- Embeds dataclass `AssignmentScore` of `src/optimization_engine.py`. -/
structure AssignmentScore where
  unit_id : String
  schedule_id : String
  route_id : String
  capacity_score : Rat
  distance_score : Rat
  availability_score : Rat
  cost_score : Rat
  total_score : Rat
  is_feasible : Bool
  constraints_violated : List String
deriving Repr, DecidableEq

/-- Embeds dataclass `Assignment` of `src/optimization_engine.py`;
`departure_time` and `estimated_return_time` are the `"HH:MM"` strings
modelled in minutes. -/
structure Assignment where
  schedule_id : String
  route_id : String
  unit_id : String
  departure_time : Int
  estimated_return_time : Int
  total_score : Rat
  fuel_cost : Rat
  assignment_reason : String
  status : String := "Assigned"
deriving Repr, DecidableEq

/-- Embeds the per-schedule dict appended to `unassigned` in
`OptimizationEngine.optimize_assignments` (keys `schedule_id`,
`route_id`, `departure_time`, `reasons`). -/
structure UnassignedRecord where
  schedule_id : String
  route_id : String
  departure_time : Int
  reasons : List String
deriving Repr, DecidableEq

/-- A `datetime` target date, modelled by its weekday index
(`datetime.weekday()`: 0 = Monday … 6 = Sunday), the only attribute the
engine reads. -/
structure Datetime where
  weekday : Fin 7
deriving Repr, DecidableEq

/-- Error kind for lookups that raise in Python (`.iloc[0]` on an empty
row selection); the spec calls this kind `NotFound`. -/
inductive Err where
  | notFound : String → Err
deriving Repr, DecidableEq

/-- Converts an optional lookup result into `Except`, modelling the
exception raised by `.iloc[0]` on an empty selection. -/
def ofOption {α : Type} (what : String) : Option α → Except Err α
  | some a => .ok a
  | none => .error (.notFound what)

/-- Embeds `parse_allowed_routes` of `src/data_models.py`: JSON decoding
happens at the boundary, so on the decoded form it is the identity. -/
def parse_allowed_routes (routes_str : List String) : List String := routes_str

/-- Embeds `parse_operating_days` of `src/data_models.py` (identity on
the decoded list, as for `parse_allowed_routes`). -/
def parse_operating_days (days_str : List String) : List String := days_str

/-- Embeds `get_day_name` of `src/data_models.py`: indexes
`["Mon", …, "Sun"]` by `datetime.weekday()`. -/
def get_day_name (date_obj : Datetime) : String :=
  ["Mon", "Tue", "Wed", "Thu", "Fri", "Sat", "Sun"].getD date_obj.weekday.val ""

/-- Zero-pads to width 2, as Python's `f"{n:02d}"`. -/
def pad2 (n : Int) : String :=
  let s := toString n
  if s.length < 2 then "0" ++ s else s

/-- Embeds `minutes_to_time_str` of `src/data_models.py`; Python `//`
and `%` are floor division and modulo, hence `Int.fdiv` / `Int.fmod`. -/
def minutes_to_time_str (minutes : Int) : String :=
  pad2 (Int.fdiv minutes 60) ++ ":" ++ pad2 (Int.fmod minutes 60)

/-- Python's `max(xs, key=f)` on the non-empty list `best :: rest`:
keeps the current element unless a later one is strictly greater, hence
returns the first element attaining the maximum key. -/
def pymax {α β : Type} [LinearOrder β] (key : α → β) : α → List α → α
  | best, [] => best
  | best, x :: xs => pymax key (if key best < key x then x else best) xs

/-- Helper of `dedupFirst`: drops elements already seen. -/
def dedupFirstAux (seen : List String) : List String → List String
  | [] => []
  | x :: xs => if x ∈ seen then dedupFirstAux seen xs else x :: dedupFirstAux (x :: seen) xs

/-- Python's `list(set(xs))`, modelled as first-occurrence
deduplication (the set's iteration order is unspecified; no claim below
depends on the order chosen here). -/
def dedupFirst (l : List String) : List String := dedupFirstAux [] l

/-- Arithmetic mean as computed by `pandas.Series.mean`, with the empty
case (NaN in pandas, never fed back into a committed decision) modelled
as 0. -/
def listMean (l : List Rat) : Rat := l.sum / (l.length : Rat)

/-- The engine's fixed scoring weights, set in
`OptimizationEngine.__init__` (`self.weights`). -/
def weight_capacity : Rat := 0.25

/-- `self.weights['distance']`. -/
def weight_distance : Rat := 0.20

/-- `self.weights['availability']`. -/
def weight_availability : Rat := 0.30

/-- `self.weights['cost']`. -/
def weight_cost : Rat := 0.25

/-- Embeds `OptimizationEngine.calculate_cycle_time`: the route's
one-way time plus the turnaround time (the one-way time is *not*
doubled). -/
def calculate_cycle_time (params : OperationalParameters) (route_time_minutes : Int) : Int :=
  route_time_minutes + params.turnaround_time_minutes

/-- Embeds `OptimizationEngine.calculate_fuel_cost`. -/
def calculate_fuel_cost (params : OperationalParameters) (distance_km fuel_efficiency : Rat) : Rat :=
  distance_km * 2 / fuel_efficiency * params.fuel_price_per_liter

/-- Embeds `OptimizationEngine.calculate_capacity_score`. -/
def calculate_capacity_score (unit_capacity required_capacity : Int) : Rat :=
  if unit_capacity < required_capacity then 0
  else
    let excess_ratio : Rat := ((unit_capacity - required_capacity : Int) : Rat) / ((required_capacity : Int) : Rat)
    if excess_ratio ≤ 0.2 then 1
    else if excess_ratio ≤ 0.5 then 0.8
    else max 0.5 (1 - excess_ratio * 0.5)

/-- Embeds `OptimizationEngine.calculate_distance_score` (home-location
variant). -/
def calculate_distance_score (unit_home route_origin : String) (route_distance : Rat) : Rat :=
  if unit_home = route_origin then 1 else 0.7

/-- Embeds
`OptimizationEngine.calculate_distance_score_location_based`. -/
def calculate_distance_score_location_based (unit_current_location route_origin : String)
    (route_distance : Rat) (deadhead_distance : Int) : Rat :=
  if unit_current_location = route_origin then 1
  else if deadhead_distance = 0 then 1
  else if deadhead_distance ≤ 30 then 0.8
  else if deadhead_distance ≤ 60 then 0.6
  else if deadhead_distance ≤ 120 then 0.4
  else 0.2

/-- Embeds `OptimizationEngine.calculate_availability_score`. -/
def calculate_availability_score (unit_status : String) (is_route_allowed : Bool) : Rat :=
  if unit_status ≠ "Available" then 0
  else if !is_route_allowed then 0
  else 1

/-- Embeds `OptimizationEngine.calculate_cost_score`. -/
def calculate_cost_score (operational_cost fuel_cost avg_operational_cost avg_fuel_cost : Rat) : Rat :=
  let total_cost := operational_cost + fuel_cost
  let avg_total := avg_operational_cost + avg_fuel_cost
  if avg_total = 0 then 0.5
  else
    let cost_ratio := total_cost / avg_total
    if cost_ratio ≤ 0.8 then 1
    else if cost_ratio ≤ 1 then 0.9
    else if cost_ratio ≤ 1.2 then 0.7
    else max 0.3 (1 - (cost_ratio - 1) * 0.5)

/-- Embeds `OptimizationEngine.get_deadhead_time`: symmetric lookup in
the parameters' travel-time table, 0 for equal locations, fallback 120
minutes. -/
def get_deadhead_time (params : OperationalParameters) (from_location to_location : String) : Int :=
  match List.lookup (from_location, to_location) params.travel_times with
  | some t => t
  | none =>
    match List.lookup (to_location, from_location) params.travel_times with
    | some t => t
    | none => if from_location = to_location then 0 else 120

/-- Embeds `OptimizationEngine.get_destination_from_assignment`;
`none` models the `IndexError` when the assignment's route id is absent
from the route collection. -/
def get_destination_from_assignment (assignment : Assignment) (routes_df : List Route) : Option String :=
  (routes_df.find? (fun r => r.route_id = assignment.route_id)).map (fun r => r.destination)

/-- Embeds `OptimizationEngine.get_unit_last_location`: destination of
the unit's latest (by departure time) assignment of this run, else its
recorded `last_location` if non-empty (Python truthiness), else its home
location.  `none` models the `IndexError` of a failed lookup. -/
def get_unit_last_location (unit_id : String) (current_assignments : List Assignment)
    (units_df : List TransportUnit) (routes_df : List Route) : Option String :=
  match current_assignments.filter (fun a => a.unit_id = unit_id) with
  | a :: rest =>
    get_destination_from_assignment (pymax (fun a => a.departure_time) a rest) routes_df
  | [] =>
    (units_df.find? (fun u => u.unit_id = unit_id)).map
      (fun u => if u.last_location ≠ "" then u.last_location else u.home_location)

/-- Embeds `OptimizationEngine.calculate_unit_availability_time`:
latest return time of the unit's assignments so far (0 if none) plus
minimum rest, plus deadhead time when the unit's last location differs
from the route origin. -/
def calculate_unit_availability_time (params : OperationalParameters) (unit_id route_origin : String)
    (schedule_departure : Int) (current_assignments : List Assignment)
    (units_df : List TransportUnit) (routes_df : List Route) : Option Int :=
  match get_unit_last_location unit_id current_assignments units_df routes_df with
  | none => none
  | some unit_last_location =>
    let last_return_time : Int :=
      match current_assignments.filter (fun a => a.unit_id = unit_id) with
      | a :: rest => (pymax (fun a => a.estimated_return_time) a rest).estimated_return_time
      | [] => 0
    let availability_after_rest := last_return_time + params.minimum_rest_time_minutes
    if unit_last_location ≠ route_origin then
      some (availability_after_rest + get_deadhead_time params unit_last_location route_origin)
    else
      some availability_after_rest

/-- Embeds `OptimizationEngine.check_constraints`: collects all
violations (eligibility, capacity, status, operating day, time conflicts
against the unit's existing assignments with the minimum rest as
buffer); feasible iff no violation. -/
def check_constraints (params : OperationalParameters) (unit_row : TransportUnit) (route_row : Route)
    (schedule_row : Schedule) (target_date : Datetime)
    (current_assignments : List Assignment) : Bool × List String :=
  let rid := route_row.route_id
  let ucap := unit_row.capacity
  let rcap := route_row.required_capacity
  let ustatus := unit_row.status
  let target_day := get_day_name target_date
  let v1 : List String :=
    if rid ∉ parse_allowed_routes unit_row.allowed_routes then
      [s!"Unit tidak diizinkan melayani rute {rid}"] else []
  let v2 : List String :=
    if ucap < rcap then
      [s!"Kapasitas unit ({ucap}) kurang dari kebutuhan rute ({rcap})"] else []
  let v3 : List String :=
    if ustatus ≠ "Available" then [s!"Unit dalam status {ustatus}"] else []
  let v4 : List String :=
    if target_day ∉ parse_operating_days schedule_row.operating_days then
      [s!"Jadwal tidak beroperasi pada hari {target_day}"] else []
  let schedule_departure := schedule_row.departure_time
  let cycle_time := calculate_cycle_time params route_row.estimated_time_minutes
  let schedule_return := schedule_departure + cycle_time
  let buffer := params.minimum_rest_time_minutes
  let vConflict : List String := current_assignments.filterMap (fun assignment =>
    if assignment.unit_id = unit_row.unit_id then
      if ¬ (schedule_return + buffer ≤ assignment.departure_time ∨
            assignment.estimated_return_time + buffer ≤ schedule_departure) then
        let sid := assignment.schedule_id
        some s!"Konflik waktu dengan penugasan {sid}"
      else none
    else none)
  let violations := v1 ++ v2 ++ v3 ++ v4 ++ vConflict
  (violations.isEmpty, violations)

/-- The run-wide average-cost baselines computed at the top of
`OptimizationEngine.optimize_assignments` (dict `avg_costs`). -/
structure AvgCosts where
  operational : Rat
  fuel : Rat
deriving Repr, DecidableEq

/-- Embeds the `avg_costs` computation of
`OptimizationEngine.optimize_assignments`. -/
def compute_avg_costs (params : OperationalParameters) (units_df : List TransportUnit)
    (routes_df : List Route) : AvgCosts :=
  { operational := listMean (units_df.map (fun u => u.operational_cost_per_km)) *
      listMean (routes_df.map (fun r => r.distance_km)) * 2
    fuel := listMean (routes_df.map (fun r => r.distance_km)) * 2 /
      listMean (units_df.map (fun u => u.fuel_efficiency)) * params.fuel_price_per_liter }

/-- Embeds `OptimizationEngine.score_unit_for_schedule` (the basic,
location-agnostic scorer). -/
def score_unit_for_schedule (params : OperationalParameters) (unit_row : TransportUnit)
    (route_row : Route) (schedule_row : Schedule) (target_date : Datetime)
    (avg_costs : AvgCosts) (current_assignments : List Assignment) : AssignmentScore :=
  let checked := check_constraints params unit_row route_row schedule_row target_date current_assignments
  let is_route_allowed : Bool := route_row.route_id ∈ parse_allowed_routes unit_row.allowed_routes
  let capacity_score := calculate_capacity_score unit_row.capacity route_row.required_capacity
  let distance_score :=
    calculate_distance_score unit_row.home_location route_row.origin route_row.distance_km
  let availability_score := calculate_availability_score unit_row.status is_route_allowed
  let fuel_cost := calculate_fuel_cost params route_row.distance_km unit_row.fuel_efficiency
  let operational_cost := unit_row.operational_cost_per_km * route_row.distance_km * 2
  let cost_score := calculate_cost_score operational_cost fuel_cost avg_costs.operational avg_costs.fuel
  let total_score :=
    weight_capacity * capacity_score +
    weight_distance * distance_score +
    weight_availability * availability_score +
    weight_cost * cost_score
  { unit_id := unit_row.unit_id
    schedule_id := schedule_row.schedule_id
    route_id := route_row.route_id
    capacity_score := capacity_score
    distance_score := distance_score
    availability_score := availability_score
    cost_score := cost_score
    total_score := total_score
    is_feasible := checked.1
    constraints_violated := checked.2 }

/-- Embeds `OptimizationEngine.score_unit_for_schedule_with_location`
(the location-aware scorer used by the main loop): basic constraints
plus the availability-time gate, location-based distance score, damped
weights (capacity and distance ×0.8, cost ×0.9) and two 0.1-weighted
extra terms (location fit, rest-time fit). -/
def score_unit_for_schedule_with_location (params : OperationalParameters)
    (unit_row : TransportUnit) (route_row : Route) (schedule_row : Schedule)
    (target_date : Datetime) (avg_costs : AvgCosts) (current_assignments : List Assignment)
    (units_df : List TransportUnit) (routes_df : List Route) : Option AssignmentScore :=
  let checked := check_constraints params unit_row route_row schedule_row target_date current_assignments
  let schedule_departure := schedule_row.departure_time
  match calculate_unit_availability_time params unit_row.unit_id
      route_row.origin schedule_departure current_assignments units_df routes_df with
  | none => none
  | some availability_time =>
    let late : Bool := schedule_departure < availability_time
    let is_feasible : Bool := if late then false else checked.1
    let violations : List String :=
      if late then
        let availStr := minutes_to_time_str availability_time
        let depStr := minutes_to_time_str schedule_departure
        checked.2 ++ [s!"Unit tidak tersedia cukup awal. Tersedia pukul {availStr}, jadwal berangkat {depStr}"]
      else checked.2
    let is_route_allowed : Bool := route_row.route_id ∈ parse_allowed_routes unit_row.allowed_routes
    let capacity_score := calculate_capacity_score unit_row.capacity route_row.required_capacity
    match get_unit_last_location unit_row.unit_id current_assignments units_df routes_df with
    | none => none
    | some unit_last_location =>
      let distance_score := calculate_distance_score_location_based unit_last_location
        route_row.origin route_row.distance_km (get_deadhead_time params unit_last_location route_row.origin)
      let availability_score := calculate_availability_score unit_row.status is_route_allowed
      let fuel_cost := calculate_fuel_cost params route_row.distance_km unit_row.fuel_efficiency
      let operational_cost := unit_row.operational_cost_per_km * route_row.distance_km * 2
      let cost_score := calculate_cost_score operational_cost fuel_cost avg_costs.operational avg_costs.fuel
      let location_fit_score : Rat := if unit_last_location = route_row.origin then 1 else 0.3
      let time_available := schedule_departure - availability_time
      let min_rest_needed := params.minimum_rest_time_minutes
      let rest_fit_score : Rat :=
        if min_rest_needed ≤ time_available then 1
        else if 0 < time_available then 0.5
        else 0
      let total_score :=
        weight_capacity * capacity_score * 0.8 +
        weight_distance * distance_score * 0.8 +
        weight_availability * availability_score +
        weight_cost * cost_score * 0.9 +
        0.1 * location_fit_score +
        0.1 * rest_fit_score
      some
        { unit_id := unit_row.unit_id
          schedule_id := schedule_row.schedule_id
          route_id := route_row.route_id
          capacity_score := capacity_score
          distance_score := distance_score
          availability_score := availability_score
          cost_score := cost_score
          total_score := total_score
          is_feasible := is_feasible
          constraints_violated := violations }

/-- Rounding to nearest with ties to even, as Python's `round` /
`format` use on the exact value. -/
def roundHalfEven (x : Rat) : Int :=
  let f := Int.floor x
  let frac := x - (f : Rat)
  if frac < 0.5 then f
  else if 0.5 < frac then f + 1
  else if f % 2 = 0 then f else f + 1

/-- Python's `f"{x:.2f}"` applied to a score (exact-rational model of
the float formatting; only used inside justification strings, which no
claim inspects numerically). -/
def fmt2 (x : Rat) : String :=
  let c := roundHalfEven (x * 100)
  let sign := if c < 0 then "-" else ""
  let n := c.natAbs
  let frac := n % 100
  sign ++ toString (n / 100) ++ "." ++ (if frac < 10 then "0" ++ toString frac else toString frac)

/-- The sort key of `active_schedules.sort(key=lambda x: (x['priority'],
x['departure_time']))`: lexicographic on (priority, departure time).
Python compares the departure `"HH:MM"` strings, which for the canonical
zero-padded encoding orders exactly like the minute values. -/
def scheduleKeyLE (a b : Schedule) : Bool :=
  if a.priority < b.priority then true
  else if b.priority < a.priority then false
  else a.departure_time ≤ b.departure_time

/-- The schedule filter at the top of
`OptimizationEngine.optimize_assignments` (and repeated verbatim in
`calculate_metrics`): schedules whose operating days contain the target
date's weekday, in input order. -/
def active_schedules (schedules_df : List Schedule) (target_date : Datetime) : List Schedule :=
  schedules_df.filter
    (fun schedule => get_day_name target_date ∈ parse_operating_days schedule.operating_days)

/-- The unit-partition loop of `optimize_assignments` (lines building
`units_at_origin` / `units_elsewhere`): keep units passing the basic
feasibility check, split by whether their last location equals the
route origin.  The final argument is the remaining iteration; order is
preserved. -/
def groupUnits (params : OperationalParameters) (units_df : List TransportUnit)
    (routes_df : List Route) (avg_costs : AvgCosts) (route : Route) (schedule : Schedule)
    (target_date : Datetime) (assignments : List Assignment) :
    List TransportUnit → Except Err (List TransportUnit × List TransportUnit)
  | [] => .ok ([], [])
  | unit :: rest =>
    let basic_score := score_unit_for_schedule params unit route schedule target_date avg_costs assignments
    if basic_score.is_feasible then
      match get_unit_last_location unit.unit_id assignments units_df routes_df with
      | none => .error (.notFound unit.unit_id)
      | some unit_last_location =>
        match groupUnits params units_df routes_df avg_costs route schedule target_date assignments rest with
        | .error e => .error e
        | .ok grouped =>
          if unit_last_location = route.origin then .ok (unit :: grouped.1, grouped.2)
          else .ok (grouped.1, unit :: grouped.2)
    else
      groupUnits params units_df routes_df avg_costs route schedule target_date assignments rest

/-- The per-group feasibility loop of `optimize_assignments` (building
`feasible_at_origin` / `feasible_elsewhere`): keep units whose
availability time is at most the departure minute, score them with the
location-aware scorer, keep feasible scores, in order. -/
def feasibleGroup (params : OperationalParameters) (units_df : List TransportUnit)
    (routes_df : List Route) (avg_costs : AvgCosts) (route : Route) (schedule : Schedule)
    (target_date : Datetime) (assignments : List Assignment)
    (schedule_origin : String) (departure_minutes : Int) :
    List TransportUnit → Except Err (List AssignmentScore)
  | [] => .ok []
  | unit :: rest =>
    match calculate_unit_availability_time params unit.unit_id schedule_origin departure_minutes
        assignments units_df routes_df with
    | none => .error (.notFound unit.unit_id)
    | some availability_time =>
      if availability_time ≤ departure_minutes then
        match score_unit_for_schedule_with_location params unit route schedule target_date avg_costs
            assignments units_df routes_df with
        | none => .error (.notFound unit.unit_id)
        | some score =>
          match feasibleGroup params units_df routes_df avg_costs route schedule target_date
              assignments schedule_origin departure_minutes rest with
          | .error e => .error e
          | .ok tail => if score.is_feasible then .ok (score :: tail) else .ok tail
      else
        feasibleGroup params units_df routes_df avg_costs route schedule target_date
          assignments schedule_origin departure_minutes rest

/-- The diagnostic scoring loop of the no-feasible-unit branch of
`optimize_assignments`: location-aware score of every unit of the two
candidate groups. -/
def scoreAll (params : OperationalParameters) (units_df : List TransportUnit)
    (routes_df : List Route) (avg_costs : AvgCosts) (route : Route) (schedule : Schedule)
    (target_date : Datetime) (assignments : List Assignment) :
    List TransportUnit → Except Err (List AssignmentScore)
  | [] => .ok []
  | unit :: rest =>
    match score_unit_for_schedule_with_location params unit route schedule target_date avg_costs
        assignments units_df routes_df with
    | none => .error (.notFound unit.unit_id)
    | some score =>
      match scoreAll params units_df routes_df avg_costs route schedule target_date assignments rest with
      | .error e => .error e
      | .ok tail => .ok (score :: tail)

/-- The commit block at the end of the schedule loop of
`optimize_assignments`: look the winning unit up by id, compute cycle
and return time, fuel cost and justification, and append the committed
`Assignment`. -/
def commitAssignment (params : OperationalParameters) (units_df : List TransportUnit)
    (route : Route) (schedule : Schedule) (st : List Assignment × List UnassignedRecord)
    (best_score : AssignmentScore) : Except Err (List Assignment × List UnassignedRecord) :=
  match units_df.find? (fun u => u.unit_id = best_score.unit_id) with
  | none => .error (.notFound best_score.unit_id)
  | some unit =>
    let departure_minutes := schedule.departure_time
    let cycle_time := calculate_cycle_time params route.estimated_time_minutes
    let return_minutes := departure_minutes + cycle_time
    let fuel_cost := calculate_fuel_cost params route.distance_km unit.fuel_efficiency
    let reason_parts : List String :=
      (if (0.9 : Rat) ≤ best_score.capacity_score then ["kapasitas optimal"] else []) ++
      (if (0.9 : Rat) ≤ best_score.distance_score then ["lokasi asal sesuai"] else []) ++
      (if (0.8 : Rat) ≤ best_score.cost_score then ["biaya efisien"] else [])
    let ts := fmt2 best_score.total_score
    let reason :=
      if reason_parts ≠ [] then s!"Skor tertinggi ({ts}): " ++ String.intercalate ", " reason_parts
      else s!"Skor tertinggi: {ts}"
    let assignment : Assignment :=
      { schedule_id := schedule.schedule_id
        route_id := schedule.route_id
        unit_id := best_score.unit_id
        departure_time := schedule.departure_time
        estimated_return_time := return_minutes
        total_score := best_score.total_score
        fuel_cost := fuel_cost
        assignment_reason := reason
        status := "Assigned" }
    .ok (st.1 ++ [assignment], st.2)

/-- One iteration of the schedule loop of
`OptimizationEngine.optimize_assignments`: look the route up, partition
units, filter feasible candidates per group, apply the locality
preference (at-origin group first) with Python's first-max selection,
and either commit one `Assignment` or emit one `UnassignedRecord` whose
reasons are the deduplicated violations of the scored candidates,
truncated to 3. -/
def processSchedule (params : OperationalParameters) (units_df : List TransportUnit)
    (routes_df : List Route) (avg_costs : AvgCosts) (target_date : Datetime)
    (st : List Assignment × List UnassignedRecord) (schedule : Schedule) :
    Except Err (List Assignment × List UnassignedRecord) :=
  match routes_df.find? (fun r => r.route_id = schedule.route_id) with
  | none => .error (.notFound schedule.route_id)
  | some route =>
    let schedule_origin := route.origin
    let departure_minutes := schedule.departure_time
    match groupUnits params units_df routes_df avg_costs route schedule target_date st.1 units_df with
    | .error e => .error e
    | .ok grouped =>
      let units_at_origin := grouped.1
      let units_elsewhere := grouped.2
      match feasibleGroup params units_df routes_df avg_costs route schedule
          target_date st.1 schedule_origin departure_minutes units_at_origin with
      | .error e => .error e
      | .ok feasible_at_origin =>
        match feasibleGroup params units_df routes_df avg_costs route schedule
            target_date st.1 schedule_origin departure_minutes units_elsewhere with
        | .error e => .error e
        | .ok feasible_elsewhere =>
          match feasible_at_origin, feasible_elsewhere with
          | b :: bs, _ =>
            commitAssignment params units_df route schedule st (pymax (fun s => s.total_score) b bs)
          | [], b :: bs =>
            commitAssignment params units_df route schedule st (pymax (fun s => s.total_score) b bs)
          | [], [] =>
            let all_units := units_at_origin ++ units_elsewhere
            match scoreAll params units_df routes_df avg_costs route schedule target_date st.1 all_units with
            | .error e => .error e
            | .ok scores =>
              let all_violations := (scores.map (fun s => s.constraints_violated)).flatten
              let unique_violations := dedupFirst all_violations
              .ok (st.1, st.2 ++
                [{ schedule_id := schedule.schedule_id
                   route_id := schedule.route_id
                   departure_time := schedule.departure_time
                   reasons := unique_violations.take 3 }])

/-- The schedule loop of `optimize_assignments`, threading the growing
assignment and unassigned lists. -/
def optLoop (params : OperationalParameters) (units_df : List TransportUnit)
    (routes_df : List Route) (avg_costs : AvgCosts) (target_date : Datetime) :
    List Assignment × List UnassignedRecord → List Schedule →
    Except Err (List Assignment × List UnassignedRecord)
  | st, [] => .ok st
  | st, schedule :: rest =>
    match processSchedule params units_df routes_df avg_costs target_date st schedule with
    | .error e => .error e
    | .ok st' => optLoop params units_df routes_df avg_costs target_date st' rest

/-- Stable insertion of a schedule into a sorted list: placed before
the first element it compares `≤` to, hence after all earlier elements
with an equal key — the stability contract of Python's `list.sort`. -/
def insortSched (x : Schedule) : List Schedule → List Schedule
  | [] => [x]
  | y :: ys => if scheduleKeyLE x y then x :: y :: ys else y :: insortSched x ys

/-- Python's stable `list.sort(key=…)` on schedules, modelled as stable
insertion sort with the key order `scheduleKeyLE`. -/
def sortSchedules : List Schedule → List Schedule
  | [] => []
  | x :: xs => insortSched x (sortSchedules xs)

/-- Embeds `OptimizationEngine.optimize_assignments`: compute average
cost baselines, filter schedules to the target weekday, stable-sort by
(priority, departure time), and run the greedy per-schedule loop. -/
def optimize_assignments (params : OperationalParameters) (units_df : List TransportUnit)
    (routes_df : List Route) (schedules_df : List Schedule) (target_date : Datetime) :
    Except Err (List Assignment × List UnassignedRecord) :=
  let avg_costs := compute_avg_costs params units_df routes_df
  let sorted := sortSchedules (active_schedules schedules_df target_date)
  optLoop params units_df routes_df avg_costs target_date ([], []) sorted

/-- The per-unit working-minute total of
`OptimizationEngine.calculate_metrics`: sum of `max 0 (return −
departure)` over the unit's assignments. -/
def workingTime (assignments : List Assignment) (unit_id : String) : Int :=
  ((assignments.filter (fun a => a.unit_id = unit_id)).map
    (fun a => max 0 (a.estimated_return_time - a.departure_time))).sum

/-- The `total_distance` loop of `calculate_metrics`; a missing route id
raises (modelled as `Err.notFound`). -/
def totalDistanceLoop (routes_df : List Route) : List Assignment → Except Err Rat
  | [] => .ok 0
  | a :: rest =>
    match routes_df.find? (fun r => r.route_id = a.route_id) with
    | none => .error (.notFound a.route_id)
    | some route =>
      match totalDistanceLoop routes_df rest with
      | .error e => .error e
      | .ok tail => .ok (route.distance_km * 2 + tail)

/-- The dict returned by `OptimizationEngine.calculate_metrics`; the
per-unit dicts are association lists over the distinct unit ids in
input order. -/
structure Metrics where
  total_schedules : Nat
  assigned_count : Nat
  coverage_rate : Rat
  utilization_rate : Rat
  total_fuel_cost : Rat
  total_distance : Rat
  average_score : Rat
  units_used : Nat
  units_available : Nat
  idle_times : List (String × Int)
  working_times : List (String × Int)
  average_idle_time_minutes : Rat
  total_idle_time_minutes : Int
deriving Repr, DecidableEq

/-- Embeds `OptimizationEngine.calculate_metrics`. -/
def calculate_metrics (params : OperationalParameters) (assignments : List Assignment)
    (units_df : List TransportUnit) (routes_df : List Route) (schedules_df : List Schedule)
    (target_date : Datetime) : Except Err Metrics :=
  match totalDistanceLoop routes_df assignments with
  | .error e => .error e
  | .ok total_distance =>
    let active := active_schedules schedules_df target_date
    let total_schedules := active.length
    let assigned_count := assignments.length
    let coverage_rate : Rat :=
      if 0 < total_schedules then (assigned_count : Rat) / (total_schedules : Rat) * 100 else 0
    let assigned_units := dedupFirst (assignments.map (fun a => a.unit_id))
    let available_units := (units_df.filter (fun u => u.status = "Available")).length
    let utilization_rate : Rat :=
      if 0 < available_units then (assigned_units.length : Rat) / (available_units : Rat) * 100 else 0
    let total_fuel_cost := (assignments.map (fun a => a.fuel_cost)).sum
    let avg_score : Rat :=
      if assignments.isEmpty then 0 else listMean (assignments.map (fun a => a.total_score))
    let unit_ids := dedupFirst (units_df.map (fun u => u.unit_id))
    let working_times := unit_ids.map (fun uid => (uid, workingTime assignments uid))
    let max_working_minutes := params.max_working_hours_per_day * 60
    let idle_times := unit_ids.map
      (fun uid => (uid, max 0 (max_working_minutes - workingTime assignments uid)))
    let total_idle_time : Int := (idle_times.map (fun p => p.2)).sum
    let avg_idle : Rat :=
      if 0 < available_units then (total_idle_time : Rat) / (available_units : Rat) else 0
    .ok
      { total_schedules := total_schedules
        assigned_count := assigned_count
        coverage_rate := coverage_rate
        utilization_rate := utilization_rate
        total_fuel_cost := total_fuel_cost
        total_distance := total_distance
        average_score := avg_score
        units_used := assigned_units.length
        units_available := available_units
        idle_times := idle_times
        working_times := working_times
        average_idle_time_minutes := avg_idle
        total_idle_time_minutes := total_idle_time }

/-! ## Spec-side comparison definition (for the total-score claim) -/

/-- Modelled from the spec: the total-score formula the spec's §4.1
states for the location-aware scorer — capacity, distance and cost all
damped by 0.9, plus the two 0.1-weighted extra terms.  Written from the
spec's words to compare against the implementation's formula. -/
def spec_total_score_with_location (capacity_score distance_score availability_score
    cost_score location_fit rest_fit : Rat) : Rat :=
  weight_capacity * capacity_score * 0.9 +
  weight_distance * distance_score * 0.9 +
  weight_availability * availability_score +
  weight_cost * cost_score * 0.9 +
  0.1 * location_fit +
  0.1 * rest_fit

/-! ## Concrete scenario data

Scenario A / B are the spec's §8 test scenarios; the `C7` family is a
two-schedule instance used to probe monotonicity; the `C9` data probe
the error-handling claims. -/

/-- A Monday target date (`datetime.weekday() = 0`). -/
def mondayDate : Datetime := ⟨0⟩

/-- Scenario A parameters: turnaround 30 min, the default operational
parameters. -/
def paramsA : OperationalParameters := {}

/-- Scenario A unit: capacity 50, Available, eligible for `R1`, home =
`H`. -/
def unitA : TransportUnit :=
  { unit_id := "U1", name := "Bus", capacity := 50, fuel_efficiency := 4.5,
    operational_cost_per_km := 2500, status := "Available", home_location := "H",
    last_location := "H", allowed_routes := ["R1"] }

/-- Scenario A route `R1`: required capacity 40, distance 25.5, one-way
time 45 min, origin = destination = the unit's home. -/
def routeA : Route :=
  { route_id := "R1", name := "RA", origin := "H", destination := "H", distance_km := 25.5,
    estimated_time_minutes := 45, route_type := "Express", required_capacity := 40 }

/-- Scenario A schedule: departs 07:00 (minute 420), active on Monday. -/
def schedA : Schedule :=
  { schedule_id := "S1", route_id := "R1", departure_time := 420, operating_days := ["Mon"],
    priority := 1 }

/-- Scenario B unit: as Scenario A but capacity 30 < required 40. -/
def unitB : TransportUnit := { unitA with capacity := 30 }

/-- Monotonicity-probe parameters: fuel price 1, and a 600-minute
deadhead between `X` and `Y`. -/
def paramsC7 : OperationalParameters :=
  { turnaround_time_minutes := 30, minimum_rest_time_minutes := 60, fuel_price_per_liter := 1,
    max_working_hours_per_day := 12, travel_times := [(("X", "Y"), 600)] }

/-- Monotonicity-probe unit `A`: capacity 80, at `X`, eligible for both
routes. -/
def unitC7A : TransportUnit :=
  { unit_id := "A", name := "A", capacity := 80, fuel_efficiency := 5,
    operational_cost_per_km := 2, status := "Available", home_location := "X",
    last_location := "X", allowed_routes := ["R1", "R2"] }

/-- Monotonicity-probe unit `B`: as `A` but capacity 40 (a tighter fit
for route `R1`, hence a higher capacity score). -/
def unitC7B : TransportUnit :=
  { unit_id := "B", name := "B", capacity := 40, fuel_efficiency := 5,
    operational_cost_per_km := 2, status := "Available", home_location := "X",
    last_location := "X", allowed_routes := ["R1", "R2"] }

/-- Monotonicity-probe route `R1`: `X` → `Y`, 45 min, required capacity
40. -/
def routeC71 : Route :=
  { route_id := "R1", name := "R1", origin := "X", destination := "Y", distance_km := 10,
    estimated_time_minutes := 45, route_type := "Reg", required_capacity := 40 }

/-- Monotonicity-probe route `R2`: `Y` → `Z`, 45 min, required capacity
60 (above unit `B`'s capacity). -/
def routeC72 : Route :=
  { route_id := "R2", name := "R2", origin := "Y", destination := "Z", distance_km := 10,
    estimated_time_minutes := 45, route_type := "Reg", required_capacity := 60 }

/-- Monotonicity-probe schedule `S1` on `R1`, departing 07:00. -/
def schedC71 : Schedule :=
  { schedule_id := "S1", route_id := "R1", departure_time := 420, operating_days := ["Mon"],
    priority := 1 }

/-- Monotonicity-probe schedule `S2` on `R2`, departing 09:15 (exactly
reachable by a unit that finished `S1` at its destination `Y`). -/
def schedC72 : Schedule :=
  { schedule_id := "S2", route_id := "R2", departure_time := 555, operating_days := ["Mon"],
    priority := 1 }

/-- A schedule that references a route id absent from every route
collection below, but operates only on Tuesday (inactive on the Monday
target date). -/
def schedC9 : Schedule :=
  { schedule_id := "SX", route_id := "RX", departure_time := 420, operating_days := ["Tue"],
    priority := 1 }

/-- As `schedC9` but operating on Monday: active on the target date,
still referencing the absent route `RX`. -/
def schedC9b : Schedule :=
  { schedule_id := "SX", route_id := "RX", departure_time := 420, operating_days := ["Mon"],
    priority := 1 }

/-- An assignment whose `unit_id` is absent from the unit collection
(its route `R1` exists). -/
def ghostAssignment : Assignment :=
  { schedule_id := "S1", route_id := "R1", unit_id := "GHOST", departure_time := 420,
    estimated_return_time := 495, total_score := 1, fuel_cost := 0, assignment_reason := "",
    status := "Assigned" }

/-- The per-assignment invariant of a run: the assignment at position
`i` of the committed list comes from an active schedule of the input,
references a found route, returns at departure + cycle time, and its
unit — a member of the unit collection — passed the basic constraint
check and the availability gate against exactly the assignments
committed before it (`A.take i`). -/
def AssignInv (params : OperationalParameters) (units_df : List TransportUnit)
    (routes_df : List Route) (schedules_df : List Schedule) (d : Datetime)
    (A : List Assignment) : Prop :=
  ∀ i (hi : i < A.length),
    ∃ s route u,
      s ∈ schedules_df ∧ get_day_name d ∈ parse_operating_days s.operating_days ∧
      s.schedule_id = (A.get ⟨i, hi⟩).schedule_id ∧
      s.route_id = (A.get ⟨i, hi⟩).route_id ∧
      s.departure_time = (A.get ⟨i, hi⟩).departure_time ∧
      routes_df.find? (fun r => r.route_id = (A.get ⟨i, hi⟩).route_id) = some route ∧
      (A.get ⟨i, hi⟩).estimated_return_time =
        (A.get ⟨i, hi⟩).departure_time + calculate_cycle_time params route.estimated_time_minutes ∧
      u ∈ units_df ∧ u.unit_id = (A.get ⟨i, hi⟩).unit_id ∧
      (check_constraints params u route s d (A.take i)).1 = true ∧
      ∃ t, calculate_unit_availability_time params u.unit_id route.origin
          (A.get ⟨i, hi⟩).departure_time (A.take i) units_df routes_df = some t ∧
        t ≤ (A.get ⟨i, hi⟩).departure_time

/-! ## Basic lemmas about the list helpers -/

/-- `pymax` picks the *first* element attaining the maximum key: the
list splits as `pre ++ winner :: post` with every earlier element
strictly below the winner and every element at most the winner. -/
theorem pymax_first_max {α β : Type} [LinearOrder β] (key : α → β) (b : α) (l : List α) :
    ∃ pre post, b :: l = pre ++ pymax key b l :: post ∧
      (∀ y ∈ pre, key y < key (pymax key b l)) ∧
      (∀ y ∈ b :: l, key y ≤ key (pymax key b l)) := by
  induction l generalizing b with
  | nil =>
    refine ⟨[], [], by simp [pymax], by simp, ?_⟩
    intro y hy
    simp only [List.mem_singleton] at hy
    simp [hy, pymax]
  | cons x xs ih =>
    by_cases h : key b < key x
    · obtain ⟨pre, post, heq, hlt, hle⟩ := ih x
      have hpy : pymax key b (x :: xs) = pymax key x xs := by simp [pymax, h]
      refine ⟨b :: pre, post, ?_, ?_, ?_⟩
      · rw [hpy, List.cons_append, ← heq]
      · intro y hy
        rcases List.mem_cons.mp hy with hy | hy
        · subst hy
          rw [hpy]
          exact lt_of_lt_of_le h (hle x (List.mem_cons_self x xs))
        · rw [hpy]; exact hlt y hy
      · intro y hy
        rcases List.mem_cons.mp hy with hy | hy
        · subst hy
          rw [hpy]
          exact le_of_lt (lt_of_lt_of_le h (hle x (List.mem_cons_self x xs)))
        · rw [hpy]; exact hle y hy
    · obtain ⟨pre, post, heq, hlt, hle⟩ := ih b
      have hpy : pymax key b (x :: xs) = pymax key b xs := by simp [pymax, h]
      have hxb : key x ≤ key b := le_of_not_lt h
      cases pre with
      | nil =>
        simp only [List.nil_append] at heq
        have hb : pymax key b xs = b := ((List.cons.injEq _ _ _ _).mp heq.symm |>.1)
        have hpost : xs = post := ((List.cons.injEq _ _ _ _).mp heq.symm |>.2).symm
        refine ⟨[], x :: post, ?_, by simp, ?_⟩
        · rw [hpy, hb, List.nil_append, hpost]
        · intro y hy
          rw [hpy, hb]
          rcases List.mem_cons.mp hy with hy | hy
          · simp [hy]
          rcases List.mem_cons.mp hy with hy | hy
          · subst hy; exact hxb
          · have h2 := hle y (List.mem_cons_of_mem b hy)
            rwa [hb] at h2
      | cons p ps =>
        have hpb : p = b := by
          have h2 := congrArg (fun t => t.head?) heq
          simpa using h2.symm
        have hxs : xs = ps ++ pymax key b xs :: post := by
          have h2 := congrArg (fun t => t.tail) heq
          simpa using h2
        have hbm : key b < key (pymax key b xs) := by
          have h2 := hlt p (List.mem_cons_self p ps)
          rwa [hpb] at h2
        refine ⟨b :: x :: ps, post, ?_, ?_, ?_⟩
        · rw [hpy, List.cons_append, List.cons_append, ← hxs]
        · intro y hy
          rw [hpy]
          rcases List.mem_cons.mp hy with hy | hy
          · subst hy; exact hbm
          rcases List.mem_cons.mp hy with hy | hy
          · subst hy; exact lt_of_le_of_lt hxb hbm
          · exact hlt y (hpb ▸ List.mem_cons_of_mem p hy)
        · intro y hy
          rw [hpy]
          rcases List.mem_cons.mp hy with hy | hy
          · subst hy; exact le_of_lt hbm
          rcases List.mem_cons.mp hy with hy | hy
          · subst hy; exact le_of_lt (lt_of_le_of_lt hxb hbm)
          · exact hle y (List.mem_cons_of_mem b hy)

/-- The `pymax` winner is an element of the scanned list. -/
theorem pymax_mem {α β : Type} [LinearOrder β] (key : α → β) (b : α) (l : List α) :
    pymax key b l ∈ b :: l := by
  obtain ⟨pre, post, heq, -, -⟩ := pymax_first_max key b l
  rw [heq]
  exact List.mem_append.mpr (Or.inr (List.mem_cons_self _ _))

/-- The `pymax` winner's key dominates every element's key. -/
theorem pymax_ge {α β : Type} [LinearOrder β] (key : α → β) (b : α) (l : List α) :
    ∀ y ∈ b :: l, key y ≤ key (pymax key b l) :=
  (pymax_first_max key b l).choose_spec.choose_spec.2.2

/-- Stable insertion permutes. -/
theorem insortSched_perm (x : Schedule) (l : List Schedule) :
    (insortSched x l).Perm (x :: l) := by
  induction l with
  | nil => simp [insortSched]
  | cons y ys ih =>
    by_cases h : scheduleKeyLE x y
    · simp [insortSched, h]
    · simp only [insortSched, h, if_neg, Bool.false_eq_true, not_false_iff]
      exact (List.Perm.cons y ih).trans (List.Perm.swap x y ys)

/-- The schedule sort permutes its input. -/
theorem sortSchedules_perm (l : List Schedule) : (sortSchedules l).Perm l := by
  induction l with
  | nil => simp [sortSchedules]
  | cons x xs ih =>
    exact (insortSched_perm x (sortSchedules xs)).trans (List.Perm.cons x ih)

/-- Elements produced by `dedupFirstAux` come from the input list. -/
theorem dedupFirstAux_subset (seen l : List String) :
    ∀ x ∈ dedupFirstAux seen l, x ∈ l := by
  induction l generalizing seen with
  | nil => simp [dedupFirstAux]
  | cons y ys ih =>
    intro x hx
    by_cases h : y ∈ seen
    · simp only [dedupFirstAux, if_pos h] at hx
      exact List.mem_cons_of_mem y (ih seen x hx)
    · simp only [dedupFirstAux, if_neg h] at hx
      rcases List.mem_cons.mp hx with hx | hx
      · simp [hx]
      · exact List.mem_cons_of_mem y (ih (y :: seen) x hx)

/-- Elements of the input not already seen appear in the output. -/
theorem mem_dedupFirstAux (seen l : List String) (x : String) (hx : x ∈ l) (hs : x ∉ seen) :
    x ∈ dedupFirstAux seen l := by
  induction l generalizing seen with
  | nil => cases hx
  | cons y ys ih =>
    by_cases h : y ∈ seen
    · have hxy : x ≠ y := fun he => hs (he ▸ h)
      simp only [dedupFirstAux, if_pos h]
      exact ih seen (by rcases List.mem_cons.mp hx with h2 | h2; exact absurd h2 hxy; exact h2) hs
    · simp only [dedupFirstAux, if_neg h]
      by_cases hxy : x = y
      · simp [hxy]
      · refine List.mem_cons_of_mem y (ih (y :: seen) ?_ ?_)
        · rcases List.mem_cons.mp hx with h2 | h2
          · exact absurd h2 hxy
          · exact h2
        · simp only [List.mem_cons, not_or]
          exact ⟨hxy, hs⟩

/-- `dedupFirst` preserves membership. -/
theorem mem_dedupFirst (l : List String) (x : String) : x ∈ dedupFirst l ↔ x ∈ l := by
  constructor
  · exact dedupFirstAux_subset [] l x
  · intro hx
    exact mem_dedupFirstAux [] l x hx (by simp)

/-- `List.lookup` over a keyed `map` gives exactly the mapped value. -/
theorem lookup_map_self {β : Type} (ids : List String) (f : String → β) (x : String)
    (hx : x ∈ ids) : List.lookup x (ids.map (fun i => (i, f i))) = some (f x) := by
  induction ids with
  | nil => cases hx
  | cons i is ih =>
    by_cases h : x = i
    · subst h
      simp [List.lookup]
    · have hb : (x == i) = false := beq_false_of_ne h
      simp only [List.map_cons, List.lookup, hb]
      exact ih (by rcases List.mem_cons.mp hx with h2 | h2; exact absurd h2 h; exact h2)

/-! ## Inversion lemmas for the constraint checker and the scorers -/

/-- The feasibility flag of `check_constraints` is the emptiness of its
violation list. -/
theorem check_constraints_fst (params : OperationalParameters) (u : TransportUnit) (r : Route)
    (s : Schedule) (d : Datetime) (A : List Assignment) :
    (check_constraints params u r s d A).1 = true ↔ (check_constraints params u r s d A).2 = [] := by
  simp [check_constraints, List.isEmpty_iff]

/-- A feasible `check_constraints` verdict certifies each individual
constraint: eligibility, capacity, status, operating day, and
pairwise separation (with the rest buffer) from every prior assignment
of the same unit. -/
theorem check_constraints_feasible (params : OperationalParameters) (u : TransportUnit) (r : Route)
    (s : Schedule) (d : Datetime) (A : List Assignment)
    (h : (check_constraints params u r s d A).1 = true) :
    r.route_id ∈ parse_allowed_routes u.allowed_routes ∧
    r.required_capacity ≤ u.capacity ∧
    u.status = "Available" ∧
    get_day_name d ∈ parse_operating_days s.operating_days ∧
    ∀ b ∈ A, b.unit_id = u.unit_id →
      s.departure_time + calculate_cycle_time params r.estimated_time_minutes +
        params.minimum_rest_time_minutes ≤ b.departure_time ∨
      b.estimated_return_time + params.minimum_rest_time_minutes ≤ s.departure_time := by
  rw [check_constraints_fst] at h
  simp only [check_constraints, List.append_eq_nil] at h
  obtain ⟨⟨⟨⟨h1, h2⟩, h3⟩, h4⟩, h5⟩ := h
  refine ⟨?_, ?_, ?_, ?_, ?_⟩
  · by_contra hc; simp [hc] at h1
  · by_contra hc
    have hc2 : u.capacity < r.required_capacity := lt_of_not_le hc
    simp [hc2] at h2
  · by_contra hc; simp [hc] at h3
  · by_contra hc; simp [hc] at h4
  · intro b hb hbu
    have h6 := List.filterMap_eq_nil.mp h5 b hb
    by_contra hc
    push_neg at hc
    simp [hbu, hc.1, hc.2] at h6

/-- The basic scorer's feasibility flag and identity fields. -/
theorem score_unit_for_schedule_fields (params : OperationalParameters) (u : TransportUnit)
    (r : Route) (s : Schedule) (d : Datetime) (ac : AvgCosts) (A : List Assignment) :
    (score_unit_for_schedule params u r s d ac A).is_feasible = (check_constraints params u r s d A).1 ∧
    (score_unit_for_schedule params u r s d ac A).unit_id = u.unit_id := by
  simp [score_unit_for_schedule]

/-- Inversion of the location-aware scorer: its identity fields, the
availability time it consulted, and — when the score is feasible — the
basic constraint check passing and the availability gate. -/
theorem score_with_location_inversion (params : OperationalParameters) (u : TransportUnit)
    (r : Route) (s : Schedule) (d : Datetime) (ac : AvgCosts) (A : List Assignment)
    (units_df : List TransportUnit) (routes_df : List Route) (sc : AssignmentScore)
    (h : score_unit_for_schedule_with_location params u r s d ac A units_df routes_df = some sc) :
    sc.unit_id = u.unit_id ∧ sc.schedule_id = s.schedule_id ∧ sc.route_id = r.route_id ∧
    ∃ t, calculate_unit_availability_time params u.unit_id r.origin s.departure_time A
        units_df routes_df = some t ∧
      (sc.is_feasible = true →
        (check_constraints params u r s d A).1 = true ∧ t ≤ s.departure_time) := by
  simp only [score_unit_for_schedule_with_location] at h
  cases havail : calculate_unit_availability_time params u.unit_id r.origin s.departure_time A
      units_df routes_df with
  | none => simp [havail] at h
  | some t =>
    simp only [havail] at h
    cases hloc : get_unit_last_location u.unit_id A units_df routes_df with
    | none => simp [hloc] at h
    | some loc =>
      simp only [hloc, Option.some.injEq] at h
      subst h
      refine ⟨rfl, rfl, rfl, t, rfl, ?_⟩
      intro hfeas
      by_cases hlate : s.departure_time < t
      · simp [hlate] at hfeas
      · simp only [hlate, decide_eq_false hlate, Bool.false_eq_true, if_false] at hfeas
        exact ⟨hfeas, le_of_not_lt hlate⟩

/-! ## Inversion lemmas for the engine loop -/

/-- What a successful unit partition certifies: both groups are
sublists of the iterated units, at-origin members are basic-feasible
with last location equal to the route origin, elsewhere members are
basic-feasible with a different last location. -/
theorem groupUnits_props (params : OperationalParameters) (units_df : List TransportUnit)
    (routes_df : List Route) (ac : AvgCosts) (route : Route) (sched : Schedule) (d : Datetime)
    (A : List Assignment) :
    ∀ iter ao ew, groupUnits params units_df routes_df ac route sched d A iter = .ok (ao, ew) →
      ao.Sublist iter ∧ ew.Sublist iter ∧
      (∀ u ∈ ao, (check_constraints params u route sched d A).1 = true ∧
        get_unit_last_location u.unit_id A units_df routes_df = some route.origin) ∧
      (∀ u ∈ ew, (check_constraints params u route sched d A).1 = true ∧
        ∃ loc, get_unit_last_location u.unit_id A units_df routes_df = some loc ∧
          loc ≠ route.origin) := by
  intro iter
  induction iter with
  | nil =>
    intro ao ew h
    simp only [groupUnits, Except.ok.injEq, Prod.mk.injEq] at h
    obtain ⟨h1, h2⟩ := h
    subst h1; subst h2
    simp
  | cons u rest ih =>
    intro ao ew h
    simp only [groupUnits] at h
    have hfeq : (score_unit_for_schedule params u route sched d ac A).is_feasible =
        (check_constraints params u route sched d A).1 :=
      (score_unit_for_schedule_fields params u route sched d ac A).1
    by_cases hfeas : (score_unit_for_schedule params u route sched d ac A).is_feasible = true
    · rw [if_pos hfeas] at h
      cases hloc : get_unit_last_location u.unit_id A units_df routes_df with
      | none => simp [hloc] at h
      | some loc =>
        simp only [hloc] at h
        cases hgr : groupUnits params units_df routes_df ac route sched d A rest with
        | error e => simp [hgr] at h
        | ok grouped =>
          simp only [hgr] at h
          obtain ⟨hsub1, hsub2, hp1, hp2⟩ := ih grouped.1 grouped.2 (by rw [hgr])
          by_cases horig : loc = route.origin
          · rw [if_pos horig] at h
            simp only [Except.ok.injEq, Prod.mk.injEq] at h
            obtain ⟨h1, h2⟩ := h
            subst h1; subst h2
            refine ⟨List.Sublist.cons₂ u hsub1, List.Sublist.cons u hsub2, ?_, hp2⟩
            intro v hv
            rcases List.mem_cons.mp hv with hv | hv
            · subst hv
              exact ⟨by rw [← hfeq]; exact hfeas, by rw [hloc, horig]⟩
            · exact hp1 v hv
          · rw [if_neg horig] at h
            simp only [Except.ok.injEq, Prod.mk.injEq] at h
            obtain ⟨h1, h2⟩ := h
            subst h1; subst h2
            refine ⟨List.Sublist.cons u hsub1, List.Sublist.cons₂ u hsub2, hp1, ?_⟩
            intro v hv
            rcases List.mem_cons.mp hv with hv | hv
            · subst hv
              exact ⟨by rw [← hfeq]; exact hfeas, loc, hloc, horig⟩
            · exact hp2 v hv
    · rw [if_neg hfeas] at h
      obtain ⟨hsub1, hsub2, hp1, hp2⟩ := ih ao ew h
      exact ⟨List.Sublist.cons u hsub1, List.Sublist.cons u hsub2, hp1, hp2⟩

/-- Every basic-feasible iterated unit lands in one of the two groups. -/
theorem groupUnits_placement (params : OperationalParameters) (units_df : List TransportUnit)
    (routes_df : List Route) (ac : AvgCosts) (route : Route) (sched : Schedule) (d : Datetime)
    (A : List Assignment) :
    ∀ iter ao ew, groupUnits params units_df routes_df ac route sched d A iter = .ok (ao, ew) →
      ∀ u ∈ iter, (check_constraints params u route sched d A).1 = true → u ∈ ao ∨ u ∈ ew := by
  intro iter
  induction iter with
  | nil => intro ao ew _ u hu; cases hu
  | cons v rest ih =>
    intro ao ew h u hu hfe
    simp only [groupUnits] at h
    have hfeq : (score_unit_for_schedule params v route sched d ac A).is_feasible =
        (check_constraints params v route sched d A).1 :=
      (score_unit_for_schedule_fields params v route sched d ac A).1
    by_cases hfeas : (score_unit_for_schedule params v route sched d ac A).is_feasible = true
    · rw [if_pos hfeas] at h
      cases hloc : get_unit_last_location v.unit_id A units_df routes_df with
      | none => simp [hloc] at h
      | some loc =>
        simp only [hloc] at h
        cases hgr : groupUnits params units_df routes_df ac route sched d A rest with
        | error e => simp [hgr] at h
        | ok grouped =>
          simp only [hgr] at h
          by_cases horig : loc = route.origin
          · rw [if_pos horig] at h
            simp only [Except.ok.injEq, Prod.mk.injEq] at h
            obtain ⟨h1, h2⟩ := h
            subst h1; subst h2
            rcases List.mem_cons.mp hu with hu | hu
            · subst hu; exact Or.inl (List.mem_cons_self _ _)
            · rcases ih grouped.1 grouped.2 (by rw [hgr]) u hu hfe with hin | hin
              · exact Or.inl (List.mem_cons_of_mem v hin)
              · exact Or.inr hin
          · rw [if_neg horig] at h
            simp only [Except.ok.injEq, Prod.mk.injEq] at h
            obtain ⟨h1, h2⟩ := h
            subst h1; subst h2
            rcases List.mem_cons.mp hu with hu | hu
            · subst hu; exact Or.inr (List.mem_cons_self _ _)
            · rcases ih grouped.1 grouped.2 (by rw [hgr]) u hu hfe with hin | hin
              · exact Or.inl hin
              · exact Or.inr (List.mem_cons_of_mem v hin)
    · rw [if_neg hfeas] at h
      rcases List.mem_cons.mp hu with hu | hu
      · subst hu
        rw [hfeq] at hfeas
        exact absurd hfe hfeas
      · exact ih ao ew h u hu hfe

/-- What membership in a feasible-candidate list certifies: the score
came from a group unit whose availability passed the gate and whose
location-aware score is feasible. -/
theorem feasibleGroup_mem (params : OperationalParameters) (units_df : List TransportUnit)
    (routes_df : List Route) (ac : AvgCosts) (route : Route) (sched : Schedule) (d : Datetime)
    (A : List Assignment) (origin : String) (dep : Int) :
    ∀ group fl, feasibleGroup params units_df routes_df ac route sched d A origin dep group = .ok fl →
      ∀ sc ∈ fl, ∃ u ∈ group,
        (∃ t, calculate_unit_availability_time params u.unit_id origin dep A units_df routes_df =
          some t ∧ t ≤ dep) ∧
        score_unit_for_schedule_with_location params u route sched d ac A units_df routes_df =
          some sc ∧
        sc.is_feasible = true := by
  intro group
  induction group with
  | nil =>
    intro fl h sc hsc
    simp only [feasibleGroup, Except.ok.injEq] at h
    subst h
    cases hsc
  | cons u rest ih =>
    intro fl h sc hsc
    simp only [feasibleGroup] at h
    cases havail : calculate_unit_availability_time params u.unit_id origin dep A units_df
        routes_df with
    | none => simp [havail] at h
    | some t =>
      simp only [havail] at h
      by_cases hle : t ≤ dep
      · rw [if_pos hle] at h
        cases hswl : score_unit_for_schedule_with_location params u route sched d ac A units_df
            routes_df with
        | none => simp [hswl] at h
        | some score =>
          simp only [hswl] at h
          cases htail : feasibleGroup params units_df routes_df ac route sched d A origin dep
              rest with
          | error e => simp [htail] at h
          | ok tail =>
            simp only [htail] at h
            by_cases hfeas : score.is_feasible = true
            · rw [if_pos hfeas] at h
              simp only [Except.ok.injEq] at h
              subst h
              rcases List.mem_cons.mp hsc with hsc | hsc
              · subst hsc
                exact ⟨u, List.mem_cons_self _ _, ⟨t, havail, hle⟩, hswl, hfeas⟩
              · obtain ⟨v, hv, hrest⟩ := ih tail htail sc hsc
                exact ⟨v, List.mem_cons_of_mem u hv, hrest⟩
            · rw [if_neg hfeas] at h
              simp only [Except.ok.injEq] at h
              subst h
              obtain ⟨v, hv, hrest⟩ := ih tail htail sc hsc
              exact ⟨v, List.mem_cons_of_mem u hv, hrest⟩
      · rw [if_neg hle] at h
        obtain ⟨v, hv, hrest⟩ := ih fl h sc hsc
        exact ⟨v, List.mem_cons_of_mem u hv, hrest⟩

/-- A group unit that passes the availability gate with a feasible
location-aware score forces the feasible-candidate list to be
non-empty. -/
theorem feasibleGroup_ne_nil (params : OperationalParameters) (units_df : List TransportUnit)
    (routes_df : List Route) (ac : AvgCosts) (route : Route) (sched : Schedule) (d : Datetime)
    (A : List Assignment) (origin : String) (dep : Int) :
    ∀ group fl, feasibleGroup params units_df routes_df ac route sched d A origin dep group = .ok fl →
      ∀ u ∈ group, ∀ t, calculate_unit_availability_time params u.unit_id origin dep A units_df
          routes_df = some t → t ≤ dep →
        ∀ sc, score_unit_for_schedule_with_location params u route sched d ac A units_df routes_df =
            some sc → sc.is_feasible = true → fl ≠ [] := by
  intro group
  induction group with
  | nil => intro fl _ u hu; cases hu
  | cons v rest ih =>
    intro fl h u hu t ht htle sc hsc hfeas
    simp only [feasibleGroup] at h
    cases havail : calculate_unit_availability_time params v.unit_id origin dep A units_df
        routes_df with
    | none => simp [havail] at h
    | some tv =>
      simp only [havail] at h
      rcases List.mem_cons.mp hu with hu | hu
      · subst hu
        rw [havail] at ht
        have htv : tv = t := by injection ht
        subst htv
        rw [if_pos htle] at h
        simp only [hsc] at h
        cases htail : feasibleGroup params units_df routes_df ac route sched d A origin dep
            rest with
        | error e => simp [htail] at h
        | ok tail =>
          simp only [htail, if_pos hfeas] at h
          simp only [Except.ok.injEq] at h
          subst h
          simp
      · by_cases hle : tv ≤ dep
        · rw [if_pos hle] at h
          cases hswl : score_unit_for_schedule_with_location params v route sched d ac A units_df
              routes_df with
          | none => simp [hswl] at h
          | some score =>
            simp only [hswl] at h
            cases htail : feasibleGroup params units_df routes_df ac route sched d A origin dep
                rest with
            | error e => simp [htail] at h
            | ok tail =>
              simp only [htail] at h
              have htailne : tail ≠ [] := ih tail htail u hu t ht htle sc hsc hfeas
              by_cases hf : score.is_feasible = true
              · rw [if_pos hf] at h
                simp only [Except.ok.injEq] at h
                subst h
                simp
              · rw [if_neg hf] at h
                simp only [Except.ok.injEq] at h
                subst h
                exact htailne
        · rw [if_neg hle] at h
          exact ih fl h u hu t ht htle sc hsc hfeas

/-- Scores of the diagnostic pass come from the scored units. -/
theorem scoreAll_mem (params : OperationalParameters) (units_df : List TransportUnit)
    (routes_df : List Route) (ac : AvgCosts) (route : Route) (sched : Schedule) (d : Datetime)
    (A : List Assignment) :
    ∀ group scores, scoreAll params units_df routes_df ac route sched d A group = .ok scores →
      ∀ sc ∈ scores, ∃ u ∈ group,
        score_unit_for_schedule_with_location params u route sched d ac A units_df routes_df =
          some sc := by
  intro group
  induction group with
  | nil =>
    intro scores h sc hsc
    simp only [scoreAll, Except.ok.injEq] at h
    subst h
    cases hsc
  | cons u rest ih =>
    intro scores h sc hsc
    simp only [scoreAll] at h
    cases hswl : score_unit_for_schedule_with_location params u route sched d ac A units_df
        routes_df with
    | none => simp [hswl] at h
    | some score =>
      rw [hswl] at h
      cases htail : scoreAll params units_df routes_df ac route sched d A rest with
      | error e => simp [htail] at h
      | ok tail =>
        simp only [htail] at h
        simp only [Except.ok.injEq] at h
        subst h
        rcases List.mem_cons.mp hsc with hsc | hsc
        · subst hsc
          exact ⟨u, List.mem_cons_self _ _, hswl⟩
        · obtain ⟨v, hv, hrest⟩ := ih tail htail sc hsc
          exact ⟨v, List.mem_cons_of_mem u hv, hrest⟩

/-- The data a successful commit appends: one assignment carrying the
schedule's identifiers and departure, the winning score's unit and total
score, and the departure-plus-cycle return time. -/
theorem commitAssignment_ok (params : OperationalParameters) (units_df : List TransportUnit)
    (route : Route) (sched : Schedule) (st : List Assignment × List UnassignedRecord)
    (best : AssignmentScore) (st2 : List Assignment × List UnassignedRecord)
    (h : commitAssignment params units_df route sched st best = .ok st2) :
    ∃ unit, units_df.find? (fun x => x.unit_id = best.unit_id) = some unit ∧
      st2.2 = st.2 ∧
      ∃ a, st2.1 = st.1 ++ [a] ∧
        a.schedule_id = sched.schedule_id ∧ a.route_id = sched.route_id ∧
        a.unit_id = best.unit_id ∧ a.departure_time = sched.departure_time ∧
        a.estimated_return_time =
          sched.departure_time + calculate_cycle_time params route.estimated_time_minutes ∧
        a.total_score = best.total_score := by
  simp only [commitAssignment] at h
  cases hfind : units_df.find? (fun x => x.unit_id = best.unit_id) with
  | none => simp [hfind] at h
  | some unit =>
    simp only [hfind] at h
    have h2 := (Except.ok.injEq _ _).mp h
    subst h2
    exact ⟨unit, rfl, rfl, _, rfl, rfl, rfl, rfl, rfl, rfl, rfl⟩

/-- Shape of one schedule step: it either appends exactly one committed
assignment or exactly one unassigned record, each carrying the
schedule's id. -/
theorem processSchedule_shape (params : OperationalParameters) (units_df : List TransportUnit)
    (routes_df : List Route) (ac : AvgCosts) (d : Datetime)
    (st : List Assignment × List UnassignedRecord) (sched : Schedule)
    (st2 : List Assignment × List UnassignedRecord)
    (h : processSchedule params units_df routes_df ac d st sched = .ok st2) :
    (∃ a, st2 = (st.1 ++ [a], st.2) ∧ a.schedule_id = sched.schedule_id) ∨
    (∃ rec, st2 = (st.1, st.2 ++ [rec]) ∧ rec.schedule_id = sched.schedule_id) := by
  simp only [processSchedule] at h
  cases hroute : routes_df.find? (fun r => r.route_id = sched.route_id) with
  | none => simp [hroute] at h
  | some route =>
    simp only [hroute] at h
    cases hgr : groupUnits params units_df routes_df ac route sched d st.1 units_df with
    | error e => simp [hgr] at h
    | ok grouped =>
      simp only [hgr] at h
      cases hfao : feasibleGroup params units_df routes_df ac route sched d st.1 route.origin
          sched.departure_time grouped.1 with
      | error e => simp [hfao] at h
      | ok fao =>
        simp only [hfao] at h
        cases hfew : feasibleGroup params units_df routes_df ac route sched d st.1 route.origin
            sched.departure_time grouped.2 with
        | error e => simp [hfew] at h
        | ok few =>
          simp only [hfew] at h
          match hm : fao, few with
          | b :: bs, few =>
            obtain ⟨unit, -, h2, a, ha, hsid, -⟩ := commitAssignment_ok _ _ _ _ _ _ _ h
            exact Or.inl ⟨a, Prod.ext (by rw [ha]) (by rw [h2]), hsid⟩
          | [], b :: bs =>
            obtain ⟨unit, -, h2, a, ha, hsid, -⟩ := commitAssignment_ok _ _ _ _ _ _ _ h
            exact Or.inl ⟨a, Prod.ext (by rw [ha]) (by rw [h2]), hsid⟩
          | [], [] =>
            cases hsc : scoreAll params units_df routes_df ac route sched d st.1
                (grouped.1 ++ grouped.2) with
            | error e => simp [hsc] at h
            | ok scores =>
              simp only [hsc, Except.ok.injEq] at h
              exact Or.inr ⟨_, h.symm, rfl⟩

/-- What a successful commit step certifies about the appended
assignment: the route was found, the identifiers and times come from
the schedule and its route (return = departure + cycle), and the
committed unit passed the basic constraint check and the availability
gate against the assignments committed so far. -/
theorem processSchedule_commit (params : OperationalParameters) (units_df : List TransportUnit)
    (routes_df : List Route) (ac : AvgCosts) (d : Datetime)
    (st : List Assignment × List UnassignedRecord) (sched : Schedule)
    (st2 : List Assignment × List UnassignedRecord) (a : Assignment)
    (h : processSchedule params units_df routes_df ac d st sched = .ok st2)
    (ha : st2.1 = st.1 ++ [a]) :
    ∃ route, routes_df.find? (fun r => r.route_id = sched.route_id) = some route ∧
      a.schedule_id = sched.schedule_id ∧ a.route_id = sched.route_id ∧
      a.departure_time = sched.departure_time ∧
      a.estimated_return_time =
        sched.departure_time + calculate_cycle_time params route.estimated_time_minutes ∧
      ∃ u, u ∈ units_df ∧ u.unit_id = a.unit_id ∧
        (check_constraints params u route sched d st.1).1 = true ∧
        ∃ t, calculate_unit_availability_time params u.unit_id route.origin sched.departure_time
            st.1 units_df routes_df = some t ∧ t ≤ sched.departure_time := by
  simp only [processSchedule] at h
  cases hroute : routes_df.find? (fun r => r.route_id = sched.route_id) with
  | none => simp [hroute] at h
  | some route =>
    simp only [hroute] at h
    cases hgr : groupUnits params units_df routes_df ac route sched d st.1 units_df with
    | error e => simp [hgr] at h
    | ok grouped =>
      simp only [hgr] at h
      obtain ⟨hsub1, hsub2, -, -⟩ := groupUnits_props params units_df routes_df ac route sched d
        st.1 units_df grouped.1 grouped.2 (by rw [hgr])
      cases hfao : feasibleGroup params units_df routes_df ac route sched d st.1 route.origin
          sched.departure_time grouped.1 with
      | error e => simp [hfao] at h
      | ok fao =>
        simp only [hfao] at h
        cases hfew : feasibleGroup params units_df routes_df ac route sched d st.1 route.origin
            sched.departure_time grouped.2 with
        | error e => simp [hfew] at h
        | ok few =>
          simp only [hfew] at h
          match hm : fao, hm2 : few with
          | b :: bs, few2 =>
            obtain ⟨unit, hfind, h2, a', ha', hsid, hrid, huid, hdep, hret, hts⟩ :=
              commitAssignment_ok _ _ _ _ _ _ _ h
            have h3 : [a'] = [a] := List.append_cancel_left (ha'.symm.trans ha)
            have haa : a' = a := by injection h3
            subst haa
            have hbestmem : pymax (fun s => s.total_score) b bs ∈ b :: bs := pymax_mem _ b bs
            obtain ⟨u, hugroup, ⟨t, ht, htle⟩, hswl, hfeas⟩ :=
              feasibleGroup_mem params units_df routes_df ac route sched d st.1 route.origin
                sched.departure_time grouped.1 (b :: bs) (hm ▸ hfao) _ hbestmem
            obtain ⟨huid2, -, -, t', ht', himp⟩ :=
              score_with_location_inversion params u route sched d ac st.1 units_df routes_df _ hswl
            obtain ⟨hcheck, htle'⟩ := himp hfeas
            exact ⟨route, rfl, hsid, hrid, hdep, hret, u, hsub1.subset hugroup,
              by rw [← huid2, ← huid], hcheck, t', ht', htle'⟩
          | [], b :: bs =>
            obtain ⟨unit, hfind, h2, a', ha', hsid, hrid, huid, hdep, hret, hts⟩ :=
              commitAssignment_ok _ _ _ _ _ _ _ h
            have h3 : [a'] = [a] := List.append_cancel_left (ha'.symm.trans ha)
            have haa : a' = a := by injection h3
            subst haa
            have hbestmem : pymax (fun s => s.total_score) b bs ∈ b :: bs := pymax_mem _ b bs
            obtain ⟨u, hugroup, ⟨t, ht, htle⟩, hswl, hfeas⟩ :=
              feasibleGroup_mem params units_df routes_df ac route sched d st.1 route.origin
                sched.departure_time grouped.2 (b :: bs) (hm2 ▸ hfew) _ hbestmem
            obtain ⟨huid2, -, -, t', ht', himp⟩ :=
              score_with_location_inversion params u route sched d ac st.1 units_df routes_df _ hswl
            obtain ⟨hcheck, htle'⟩ := himp hfeas
            exact ⟨route, rfl, hsid, hrid, hdep, hret, u, hsub2.subset hugroup,
              by rw [← huid2, ← huid], hcheck, t', ht', htle'⟩
          | [], [] =>
            cases hsc : scoreAll params units_df routes_df ac route sched d st.1
                (grouped.1 ++ grouped.2) with
            | error e => simp [hsc] at h
            | ok scores =>
              simp only [hsc, Except.ok.injEq] at h
              rw [← h] at ha
              simp at ha

/-- What an unassigned step certifies about the appended record: it
carries the schedule's id, route id and departure; its reasons list has
at most 3 entries, and every reason is a violation reported by the
location-aware score of some unit that passed the basic feasibility
check (only units of the two candidate groups are scored in the
diagnostic pass). -/
theorem processSchedule_unassigned (params : OperationalParameters)
    (units_df : List TransportUnit) (routes_df : List Route) (ac : AvgCosts) (d : Datetime)
    (st : List Assignment × List UnassignedRecord) (sched : Schedule)
    (st2 : List Assignment × List UnassignedRecord) (rec : UnassignedRecord)
    (h : processSchedule params units_df routes_df ac d st sched = .ok st2)
    (hr : st2.2 = st.2 ++ [rec]) :
    rec.schedule_id = sched.schedule_id ∧ rec.route_id = sched.route_id ∧
    rec.departure_time = sched.departure_time ∧
    rec.reasons.length ≤ 3 ∧
    ∃ route, routes_df.find? (fun r => r.route_id = sched.route_id) = some route ∧
      ∀ msg ∈ rec.reasons, ∃ u, u ∈ units_df ∧
        (check_constraints params u route sched d st.1).1 = true ∧
        ∃ sc, score_unit_for_schedule_with_location params u route sched d ac st.1 units_df
            routes_df = some sc ∧ msg ∈ sc.constraints_violated := by
  simp only [processSchedule] at h
  cases hroute : routes_df.find? (fun r => r.route_id = sched.route_id) with
  | none => simp [hroute] at h
  | some route =>
    simp only [hroute] at h
    cases hgr : groupUnits params units_df routes_df ac route sched d st.1 units_df with
    | error e => simp [hgr] at h
    | ok grouped =>
      simp only [hgr] at h
      obtain ⟨hsub1, hsub2, hp1, hp2⟩ := groupUnits_props params units_df routes_df ac route
        sched d st.1 units_df grouped.1 grouped.2 (by rw [hgr])
      cases hfao : feasibleGroup params units_df routes_df ac route sched d st.1 route.origin
          sched.departure_time grouped.1 with
      | error e => simp [hfao] at h
      | ok fao =>
        simp only [hfao] at h
        cases hfew : feasibleGroup params units_df routes_df ac route sched d st.1 route.origin
            sched.departure_time grouped.2 with
        | error e => simp [hfew] at h
        | ok few =>
          simp only [hfew] at h
          match hm : fao, hm2 : few with
          | b :: bs, few2 =>
            obtain ⟨unit, hfind, h2, a', ha', -⟩ := commitAssignment_ok _ _ _ _ _ _ _ h
            rw [h2] at hr
            simp at hr
          | [], b :: bs =>
            obtain ⟨unit, hfind, h2, a', ha', -⟩ := commitAssignment_ok _ _ _ _ _ _ _ h
            rw [h2] at hr
            simp at hr
          | [], [] =>
            cases hsc : scoreAll params units_df routes_df ac route sched d st.1
                (grouped.1 ++ grouped.2) with
            | error e => simp [hsc] at h
            | ok scores =>
              simp only [hsc, Except.ok.injEq] at h
              rw [← h] at hr
              simp only at hr
              have hrec : rec =
                  { schedule_id := sched.schedule_id, route_id := sched.route_id,
                    departure_time := sched.departure_time,
                    reasons := (dedupFirst
                      ((scores.map (fun s => s.constraints_violated)).flatten)).take 3 } := by
                have h4 := List.append_cancel_left hr
                injection h4 with h5
                exact h5.symm
              subst hrec
              refine ⟨rfl, rfl, rfl, ?_, route, rfl, ?_⟩
              · simp only [List.length_take]
                exact min_le_left _ _
              · intro msg hmsg
                have hmsg2 : msg ∈ dedupFirst
                    ((scores.map (fun s => s.constraints_violated)).flatten) :=
                  List.take_subset 3 _ hmsg
                have hmsg3 : msg ∈ (scores.map (fun s => s.constraints_violated)).flatten :=
                  (mem_dedupFirst _ msg).mp hmsg2
                obtain ⟨vl, hvl, hmv⟩ := List.mem_flatten.mp hmsg3
                obtain ⟨sc, hscmem, hvlsc⟩ := List.mem_map.mp hvl
                obtain ⟨u, hugroup, hswl⟩ := scoreAll_mem params units_df routes_df ac route
                  sched d st.1 (grouped.1 ++ grouped.2) scores hsc sc hscmem
                have humem : u ∈ units_df := by
                  rcases List.mem_append.mp hugroup with hin | hin
                  · exact hsub1.subset hin
                  · exact hsub2.subset hin
                have hbasic : (check_constraints params u route sched d st.1).1 = true := by
                  rcases List.mem_append.mp hugroup with hin | hin
                  · exact (hp1 u hin).1
                  · exact (hp2 u hin).1
                exact ⟨u, humem, hbasic, sc, hswl, hvlsc ▸ hmv⟩

/-- A schedule whose route id is absent from the route collection makes
the schedule step fail with a `NotFound` error. -/
theorem processSchedule_route_missing (params : OperationalParameters)
    (units_df : List TransportUnit) (routes_df : List Route) (ac : AvgCosts) (d : Datetime)
    (st : List Assignment × List UnassignedRecord) (sched : Schedule)
    (hfind : routes_df.find? (fun r => r.route_id = sched.route_id) = none) :
    processSchedule params units_df routes_df ac d st sched =
      .error (.notFound sched.route_id) := by
  simp [processSchedule, hfind]

/-! ## Lemmas about the schedule loop -/

/-- Bookkeeping of the loop: the schedule ids of the final assignment
and unassigned lists are, as a multiset, the initial ones plus the ids
of the processed schedules — each processed schedule contributes
exactly one entry to exactly one list. -/
theorem optLoop_ids (params : OperationalParameters) (units_df : List TransportUnit)
    (routes_df : List Route) (ac : AvgCosts) (d : Datetime) :
    ∀ (l : List Schedule) (st fin : List Assignment × List UnassignedRecord),
      optLoop params units_df routes_df ac d st l = .ok fin →
      (fin.1.map (fun a => a.schedule_id) ++ fin.2.map (fun r => r.schedule_id)).Perm
        ((st.1.map (fun a => a.schedule_id) ++ st.2.map (fun r => r.schedule_id)) ++
          l.map (fun s => s.schedule_id)) := by
  intro l
  induction l with
  | nil =>
    intro st fin h
    simp only [optLoop, Except.ok.injEq] at h
    subst h
    simp
  | cons sched rest ih =>
    intro st fin h
    simp only [optLoop] at h
    cases hps : processSchedule params units_df routes_df ac d st sched with
    | error e => simp [hps] at h
    | ok st' =>
      simp only [hps] at h
      have hperm := ih st' fin h
      rcases processSchedule_shape _ _ _ _ _ _ _ _ hps with ⟨a, hsteq, hsid⟩ | ⟨rec, hsteq, hsid⟩
      · subst hsteq
        refine hperm.trans ?_
        simp only [List.map_append, List.map_cons, List.map_nil, List.append_assoc]
        refine List.Perm.append_left _ ?_
        rw [hsid]
        simp only [List.singleton_append]
        exact List.perm_middle.symm
      · subst hsteq
        refine hperm.trans ?_
        simp only [List.map_append, List.map_cons, List.map_nil, List.append_assoc]
        refine List.Perm.append_left _ (List.Perm.append_left _ ?_)
        rw [hsid]
        simp

/-- If any schedule in the remaining list references a missing route,
the loop fails. -/
theorem optLoop_route_missing (params : OperationalParameters) (units_df : List TransportUnit)
    (routes_df : List Route) (ac : AvgCosts) (d : Datetime) :
    ∀ (l : List Schedule) (st : List Assignment × List UnassignedRecord),
      (∃ s ∈ l, routes_df.find? (fun r => r.route_id = s.route_id) = none) →
      ∃ e, optLoop params units_df routes_df ac d st l = .error e := by
  intro l
  induction l with
  | nil =>
    intro st h
    obtain ⟨s, hs, -⟩ := h
    cases hs
  | cons sched rest ih =>
    intro st h
    obtain ⟨s, hs, hfind⟩ := h
    rcases List.mem_cons.mp hs with hseq | hsrest
    · subst hseq
      refine ⟨.notFound s.route_id, ?_⟩
      simp only [optLoop, processSchedule_route_missing params units_df routes_df ac d st s hfind]
    · cases hps : processSchedule params units_df routes_df ac d st sched with
      | error e => exact ⟨e, by simp [optLoop, hps]⟩
      | ok st' =>
        obtain ⟨e, he⟩ := ih st' ⟨s, hsrest, hfind⟩
        exact ⟨e, by simp [optLoop, hps, he]⟩

/-- The loop preserves the per-assignment invariant, provided every
processed schedule belongs to the schedule collection and operates on
the target weekday. -/
theorem optLoop_invariant (params : OperationalParameters) (units_df : List TransportUnit)
    (routes_df : List Route) (schedules_df : List Schedule) (ac : AvgCosts) (d : Datetime) :
    ∀ (l : List Schedule) (st fin : List Assignment × List UnassignedRecord),
      (∀ s ∈ l, s ∈ schedules_df ∧ get_day_name d ∈ parse_operating_days s.operating_days) →
      optLoop params units_df routes_df ac d st l = .ok fin →
      AssignInv params units_df routes_df schedules_df d st.1 →
      AssignInv params units_df routes_df schedules_df d fin.1 := by
  intro l
  induction l with
  | nil =>
    intro st fin _ h hinv
    simp only [optLoop, Except.ok.injEq] at h
    subst h
    exact hinv
  | cons sched rest ih =>
    intro st fin hl h hinv
    simp only [optLoop] at h
    cases hps : processSchedule params units_df routes_df ac d st sched with
    | error e => simp [hps] at h
    | ok st' =>
      simp only [hps] at h
      refine ih st' fin (fun s hs => hl s (List.mem_cons_of_mem sched hs)) h ?_
      rcases processSchedule_shape _ _ _ _ _ _ _ _ hps with ⟨a, hsteq, -⟩ | ⟨rec, hsteq, -⟩
      · -- commit step: extend the invariant to the appended assignment
        obtain ⟨route, hroute, hsid, hrid, hdep, hret, u, humem, huid, hcheck, t, ht, htle⟩ :=
          processSchedule_commit _ _ _ _ _ _ _ _ _ hps (by rw [hsteq])
        rw [hsteq]
        intro i hi
        by_cases hilt : i < st.1.length
        · have hget : (st.1 ++ [a]).get ⟨i, hi⟩ = st.1.get ⟨i, hilt⟩ := by
            simp [List.getElem_append_left hilt]
          have htake : (st.1 ++ [a]).take i = st.1.take i :=
            List.take_append_of_le_length (le_of_lt hilt)
          obtain ⟨s, route2, u2, hprops⟩ := hinv i hilt
          refine ⟨s, route2, u2, ?_⟩
          rw [hget, htake]
          exact hprops
        · have hieq : i = st.1.length := by
            have hi2 := hi
            simp only [List.length_append, List.length_cons, List.length_nil] at hi2
            omega
          subst hieq
          have hget : (st.1 ++ [a]).get ⟨st.1.length, hi⟩ = a :=
            List.getElem_concat_length st.1 a st.1.length rfl _
          have htake : (st.1 ++ [a]).take st.1.length = st.1 := List.take_left st.1 [a]
          obtain ⟨hsch, hday⟩ := hl sched (List.mem_cons_self _ _)
          refine ⟨sched, route, u, hsch, hday, ?_⟩
          rw [hget, htake]
          exact ⟨hsid.symm, hrid.symm, hdep.symm, hrid ▸ hroute,
            by rw [hret, hdep], humem, huid, hcheck, t, by rw [hdep]; exact ht,
            by rw [hdep]; exact htle⟩
      · rw [hsteq]
        exact hinv

/-! ## Totality: the engine only fails on missing route references -/

/-- A unit of the collection can always be looked up by its own id. -/
theorem find?_unit_self (units_df : List TransportUnit) (u : TransportUnit) (hu : u ∈ units_df) :
    ∃ v, units_df.find? (fun x => x.unit_id = u.unit_id) = some v ∧ v.unit_id = u.unit_id := by
  have hsome : (units_df.find? (fun x => x.unit_id = u.unit_id)).isSome :=
    List.find?_isSome.mpr ⟨u, hu, by simp⟩
  obtain ⟨v, hv⟩ := Option.isSome_iff_exists.mp hsome
  refine ⟨v, hv, ?_⟩
  have := List.find?_some hv
  simpa using this

/-- `get_unit_last_location` succeeds when the unit id resolves and
every prior assignment's route resolves. -/
theorem get_unit_last_location_isSome (uid : String) (A : List Assignment)
    (units_df : List TransportUnit) (routes_df : List Route)
    (hunit : (units_df.find? (fun x => x.unit_id = uid)).isSome)
    (hroutes : ∀ a ∈ A, (routes_df.find? (fun r => r.route_id = a.route_id)).isSome) :
    (get_unit_last_location uid A units_df routes_df).isSome := by
  unfold get_unit_last_location
  cases hfil : A.filter (fun a => a.unit_id = uid) with
  | nil =>
    obtain ⟨v, hv⟩ := Option.isSome_iff_exists.mp hunit
    simp [hv]
  | cons a rest =>
    have hmem : pymax (fun a => a.departure_time) a rest ∈ a :: rest := pymax_mem _ a rest
    have hmemA : pymax (fun a => a.departure_time) a rest ∈ A := by
      have : pymax (fun a => a.departure_time) a rest ∈ A.filter (fun a => a.unit_id = uid) := by
        rw [hfil]; exact hmem
      exact (List.mem_filter.mp this).1
    have hfound := hroutes _ hmemA
    obtain ⟨r, hr⟩ := Option.isSome_iff_exists.mp hfound
    simp [get_destination_from_assignment, hr]

/-- `calculate_unit_availability_time` succeeds under the same
hypotheses. -/
theorem calculate_unit_availability_time_isSome (params : OperationalParameters) (uid ori : String)
    (dep : Int) (A : List Assignment) (units_df : List TransportUnit) (routes_df : List Route)
    (hunit : (units_df.find? (fun x => x.unit_id = uid)).isSome)
    (hroutes : ∀ a ∈ A, (routes_df.find? (fun r => r.route_id = a.route_id)).isSome) :
    (calculate_unit_availability_time params uid ori dep A units_df routes_df).isSome := by
  unfold calculate_unit_availability_time
  obtain ⟨loc, hloc⟩ := Option.isSome_iff_exists.mp
    (get_unit_last_location_isSome uid A units_df routes_df hunit hroutes)
  rw [hloc]
  by_cases hne : loc ≠ ori
  · simp [hne]
  · simp [hne]

/-- The location-aware scorer succeeds under the same hypotheses. -/
theorem score_with_location_isSome (params : OperationalParameters) (u : TransportUnit)
    (r : Route) (s : Schedule) (d : Datetime) (ac : AvgCosts) (A : List Assignment)
    (units_df : List TransportUnit) (routes_df : List Route)
    (hunit : (units_df.find? (fun x => x.unit_id = u.unit_id)).isSome)
    (hroutes : ∀ a ∈ A, (routes_df.find? (fun x => x.route_id = a.route_id)).isSome) :
    (score_unit_for_schedule_with_location params u r s d ac A units_df routes_df).isSome := by
  simp only [score_unit_for_schedule_with_location]
  obtain ⟨t, ht⟩ := Option.isSome_iff_exists.mp
    (calculate_unit_availability_time_isSome params u.unit_id r.origin s.departure_time A
      units_df routes_df hunit hroutes)
  rw [ht]
  obtain ⟨loc, hloc⟩ := Option.isSome_iff_exists.mp
    (get_unit_last_location_isSome u.unit_id A units_df routes_df hunit hroutes)
  rw [hloc]
  simp

/-- The unit partition succeeds when the iterated units belong to the
collection and prior assignment routes resolve. -/
theorem groupUnits_ok (params : OperationalParameters) (units_df : List TransportUnit)
    (routes_df : List Route) (ac : AvgCosts) (route : Route) (sched : Schedule) (d : Datetime)
    (A : List Assignment)
    (hroutes : ∀ a ∈ A, (routes_df.find? (fun x => x.route_id = a.route_id)).isSome) :
    ∀ iter, (∀ u ∈ iter, u ∈ units_df) →
      ∃ g, groupUnits params units_df routes_df ac route sched d A iter = .ok g := by
  intro iter
  induction iter with
  | nil => intro _; exact ⟨([], []), rfl⟩
  | cons u rest ih =>
    intro hiter
    obtain ⟨g, hg⟩ := ih (fun v hv => hiter v (List.mem_cons_of_mem u hv))
    simp only [groupUnits]
    by_cases hfeas : (score_unit_for_schedule params u route sched d ac A).is_feasible = true
    · rw [if_pos hfeas]
      obtain ⟨v, hv, -⟩ := find?_unit_self units_df u (hiter u (List.mem_cons_self _ _))
      obtain ⟨loc, hloc⟩ := Option.isSome_iff_exists.mp
        (get_unit_last_location_isSome u.unit_id A units_df routes_df (by simp [hv]) hroutes)
      simp only [hloc, hg]
      by_cases horig : loc = route.origin
      · rw [if_pos horig]; exact ⟨_, rfl⟩
      · rw [if_neg horig]; exact ⟨_, rfl⟩
    · rw [if_neg hfeas]
      exact ⟨g, hg⟩

/-- The per-group feasibility pass succeeds under the same
hypotheses. -/
theorem feasibleGroup_ok (params : OperationalParameters) (units_df : List TransportUnit)
    (routes_df : List Route) (ac : AvgCosts) (route : Route) (sched : Schedule) (d : Datetime)
    (A : List Assignment) (ori : String) (dep : Int)
    (hroutes : ∀ a ∈ A, (routes_df.find? (fun x => x.route_id = a.route_id)).isSome) :
    ∀ group, (∀ u ∈ group, u ∈ units_df) →
      ∃ fl, feasibleGroup params units_df routes_df ac route sched d A ori dep group = .ok fl := by
  intro group
  induction group with
  | nil => intro _; exact ⟨[], rfl⟩
  | cons u rest ih =>
    intro hgroup
    obtain ⟨fl, hfl⟩ := ih (fun v hv => hgroup v (List.mem_cons_of_mem u hv))
    simp only [feasibleGroup]
    obtain ⟨v, hv, -⟩ := find?_unit_self units_df u (hgroup u (List.mem_cons_self _ _))
    obtain ⟨t, ht⟩ := Option.isSome_iff_exists.mp
      (calculate_unit_availability_time_isSome params u.unit_id ori dep A units_df routes_df
        (by simp [hv]) hroutes)
    simp only [ht]
    by_cases hle : t ≤ dep
    · rw [if_pos hle]
      obtain ⟨sc, hsc⟩ := Option.isSome_iff_exists.mp
        (score_with_location_isSome params u route sched d ac A units_df routes_df
          (by simp [hv]) hroutes)
      simp only [hsc, hfl]
      by_cases hf : sc.is_feasible = true
      · rw [if_pos hf]; exact ⟨_, rfl⟩
      · rw [if_neg hf]; exact ⟨_, rfl⟩
    · rw [if_neg hle]
      exact ⟨fl, hfl⟩

/-- The diagnostic scoring pass succeeds under the same hypotheses. -/
theorem scoreAll_ok (params : OperationalParameters) (units_df : List TransportUnit)
    (routes_df : List Route) (ac : AvgCosts) (route : Route) (sched : Schedule) (d : Datetime)
    (A : List Assignment)
    (hroutes : ∀ a ∈ A, (routes_df.find? (fun x => x.route_id = a.route_id)).isSome) :
    ∀ group, (∀ u ∈ group, u ∈ units_df) →
      ∃ scores, scoreAll params units_df routes_df ac route sched d A group = .ok scores := by
  intro group
  induction group with
  | nil => intro _; exact ⟨[], rfl⟩
  | cons u rest ih =>
    intro hgroup
    obtain ⟨scores, hscores⟩ := ih (fun v hv => hgroup v (List.mem_cons_of_mem u hv))
    simp only [scoreAll]
    obtain ⟨v, hv, -⟩ := find?_unit_self units_df u (hgroup u (List.mem_cons_self _ _))
    obtain ⟨sc, hsc⟩ := Option.isSome_iff_exists.mp
      (score_with_location_isSome params u route sched d ac A units_df routes_df
        (by simp [hv]) hroutes)
    simp only [hsc, hscores]
    exact ⟨_, rfl⟩

/-- A schedule step succeeds whenever the schedule's route resolves and
all previously committed routes resolve; the committed-routes property
is preserved. -/
theorem processSchedule_ok (params : OperationalParameters) (units_df : List TransportUnit)
    (routes_df : List Route) (ac : AvgCosts) (d : Datetime)
    (st : List Assignment × List UnassignedRecord) (sched : Schedule)
    (hsched : (routes_df.find? (fun r => r.route_id = sched.route_id)).isSome)
    (hroutes : ∀ a ∈ st.1, (routes_df.find? (fun x => x.route_id = a.route_id)).isSome) :
    ∃ st2, processSchedule params units_df routes_df ac d st sched = .ok st2 ∧
      ∀ a ∈ st2.1, (routes_df.find? (fun x => x.route_id = a.route_id)).isSome := by
  obtain ⟨route, hroute⟩ := Option.isSome_iff_exists.mp hsched
  simp only [processSchedule, hroute]
  obtain ⟨g, hg⟩ := groupUnits_ok params units_df routes_df ac route sched d st.1 hroutes
    units_df (fun u hu => hu)
  obtain ⟨hsub1, hsub2, -, -⟩ := groupUnits_props params units_df routes_df ac route sched d
    st.1 units_df g.1 g.2 (by rw [hg])
  obtain ⟨fao, hfao⟩ := feasibleGroup_ok params units_df routes_df ac route sched d st.1
    route.origin sched.departure_time hroutes g.1 (fun u hu => hsub1.subset hu)
  obtain ⟨few, hfew⟩ := feasibleGroup_ok params units_df routes_df ac route sched d st.1
    route.origin sched.departure_time hroutes g.2 (fun u hu => hsub2.subset hu)
  simp only [hg, hfao, hfew]
  match hm : fao, hm2 : few with
  | b :: bs, few2 =>
    have hbm : pymax (fun s => s.total_score) b bs ∈ b :: bs := pymax_mem _ b bs
    obtain ⟨u, hu, -, hswl, -⟩ := feasibleGroup_mem params units_df routes_df ac route sched d
      st.1 route.origin sched.departure_time g.1 (b :: bs) (hm ▸ hfao) _ hbm
    obtain ⟨huid, -⟩ := score_with_location_inversion params u route sched d ac st.1 units_df
      routes_df _ hswl
    obtain ⟨v, hv, -⟩ := find?_unit_self units_df u (hsub1.subset hu)
    simp only [commitAssignment, huid, hv]
    refine ⟨_, rfl, ?_⟩
    intro a ha
    simp only at ha
    rcases List.mem_append.mp ha with ha | ha
    · exact hroutes a ha
    · have : a.route_id = sched.route_id := by
        rcases List.mem_singleton.mp ha with rfl
        rfl
      rw [this]
      exact hsched
  | [], b :: bs =>
    have hbm : pymax (fun s => s.total_score) b bs ∈ b :: bs := pymax_mem _ b bs
    obtain ⟨u, hu, -, hswl, -⟩ := feasibleGroup_mem params units_df routes_df ac route sched d
      st.1 route.origin sched.departure_time g.2 (b :: bs) (hm2 ▸ hfew) _ hbm
    obtain ⟨huid, -⟩ := score_with_location_inversion params u route sched d ac st.1 units_df
      routes_df _ hswl
    obtain ⟨v, hv, -⟩ := find?_unit_self units_df u (hsub2.subset hu)
    simp only [commitAssignment, huid, hv]
    refine ⟨_, rfl, ?_⟩
    intro a ha
    simp only at ha
    rcases List.mem_append.mp ha with ha | ha
    · exact hroutes a ha
    · have : a.route_id = sched.route_id := by
        rcases List.mem_singleton.mp ha with rfl
        rfl
      rw [this]
      exact hsched
  | [], [] =>
    obtain ⟨scores, hscores⟩ := scoreAll_ok params units_df routes_df ac route sched d st.1
      hroutes (g.1 ++ g.2) (by
        intro u hu
        rcases List.mem_append.mp hu with hu | hu
        · exact hsub1.subset hu
        · exact hsub2.subset hu)
    simp only [hscores]
    exact ⟨_, rfl, hroutes⟩

/-- The schedule loop succeeds when every remaining schedule's route
resolves and every committed route so far resolves. -/
theorem optLoop_ok (params : OperationalParameters) (units_df : List TransportUnit)
    (routes_df : List Route) (ac : AvgCosts) (d : Datetime) :
    ∀ (l : List Schedule) (st : List Assignment × List UnassignedRecord),
      (∀ s ∈ l, (routes_df.find? (fun r => r.route_id = s.route_id)).isSome) →
      (∀ a ∈ st.1, (routes_df.find? (fun x => x.route_id = a.route_id)).isSome) →
      ∃ fin, optLoop params units_df routes_df ac d st l = .ok fin := by
  intro l
  induction l with
  | nil => intro st _ _; exact ⟨st, rfl⟩
  | cons sched rest ih =>
    intro st hl hroutes
    obtain ⟨st2, hst2, hroutes2⟩ := processSchedule_ok params units_df routes_df ac d st sched
      (hl sched (List.mem_cons_self _ _)) hroutes
    obtain ⟨fin, hfin⟩ := ih st2 (fun s hs => hl s (List.mem_cons_of_mem sched hs)) hroutes2
    exact ⟨fin, by simp [optLoop, hst2, hfin]⟩

/-! ## Lemmas about the metrics calculator -/

/-- The distance loop fails on the first assignment whose route id does
not resolve. -/
theorem totalDistanceLoop_missing (routes_df : List Route) :
    ∀ (l : List Assignment),
      (∃ a ∈ l, routes_df.find? (fun r => r.route_id = a.route_id) = none) →
      ∃ msg, totalDistanceLoop routes_df l = .error (.notFound msg) := by
  intro l
  induction l with
  | nil =>
    intro h
    obtain ⟨a, ha, -⟩ := h
    cases ha
  | cons a rest ih =>
    intro h
    cases hfind : routes_df.find? (fun r => r.route_id = a.route_id) with
    | none => exact ⟨a.route_id, by simp [totalDistanceLoop, hfind]⟩
    | some route =>
      obtain ⟨b, hb, hbf⟩ := h
      rcases List.mem_cons.mp hb with hba | hbr
      · subst hba
        rw [hfind] at hbf
        cases hbf
      · obtain ⟨msg, hmsg⟩ := ih ⟨b, hbr, hbf⟩
        exact ⟨msg, by simp [totalDistanceLoop, hfind, hmsg]⟩

/-- What a successful metrics run certifies about the per-unit time
maps: for every unit of the collection, its working-time entry is the
clamped sum over its assignments and its idle-time entry is the clamped
complement to the daily cap. -/
theorem calculate_metrics_times (params : OperationalParameters) (assignments : List Assignment)
    (units_df : List TransportUnit) (routes_df : List Route) (schedules_df : List Schedule)
    (d : Datetime) (m : Metrics)
    (h : calculate_metrics params assignments units_df routes_df schedules_df d = .ok m) :
    ∀ u ∈ units_df,
      List.lookup u.unit_id m.working_times = some (workingTime assignments u.unit_id) ∧
      List.lookup u.unit_id m.idle_times =
        some (max 0 (params.max_working_hours_per_day * 60 - workingTime assignments u.unit_id)) := by
  intro u hu
  simp only [calculate_metrics] at h
  cases htd : totalDistanceLoop routes_df assignments with
  | error e => simp [htd] at h
  | ok td =>
    simp only [htd, Except.ok.injEq] at h
    subst h
    have hid : u.unit_id ∈ dedupFirst (units_df.map (fun v => v.unit_id)) :=
      (mem_dedupFirst _ _).mpr (List.mem_map.mpr ⟨u, hu, rfl⟩)
    constructor
    · exact lookup_map_self _ (fun uid => workingTime assignments uid) _ hid
    · exact lookup_map_self _
        (fun uid => max 0 (params.max_working_hours_per_day * 60 - workingTime assignments uid)) _ hid

/-- Membership in the active-schedule filter. -/
theorem mem_active_schedules (schedules_df : List Schedule) (d : Datetime) (s : Schedule) :
    s ∈ active_schedules schedules_df d ↔
      s ∈ schedules_df ∧ get_day_name d ∈ parse_operating_days s.operating_days := by
  simp [active_schedules]

/-! ## The claims -/

/-- C10: for every input in which each schedule's `route_id` is present
in the route collection, the run succeeds, and every schedule active on
the target date's weekday contributes exactly one entry to exactly one
of the two result lists while inactive schedules appear in neither:
the schedule ids across the Assignment and UnassignedRecord lists are,
as a multiset, exactly the active-schedule ids — hence the Assignment
count plus the UnassignedRecord count equals the number of active
schedules. -/
theorem C10_active_schedule_partition (params : OperationalParameters)
    (units_df : List TransportUnit) (routes_df : List Route) (schedules_df : List Schedule)
    (d : Datetime)
    (hroutes : ∀ s ∈ schedules_df, (routes_df.find? (fun r => r.route_id = s.route_id)).isSome) :
    ∃ A U, optimize_assignments params units_df routes_df schedules_df d = .ok (A, U) ∧
      (A.map (fun a => a.schedule_id) ++ U.map (fun r => r.schedule_id)).Perm
        ((active_schedules schedules_df d).map (fun s => s.schedule_id)) ∧
      A.length + U.length = (active_schedules schedules_df d).length := by
  have hsorted : ∀ s ∈ sortSchedules (active_schedules schedules_df d),
      (routes_df.find? (fun r => r.route_id = s.route_id)).isSome := by
    intro s hs
    have hmem : s ∈ active_schedules schedules_df d :=
      ((sortSchedules_perm _).mem_iff).mp hs
    exact hroutes s ((mem_active_schedules _ _ _).mp hmem).1
  obtain ⟨fin, hfin⟩ := optLoop_ok params units_df routes_df
    (compute_avg_costs params units_df routes_df) d
    (sortSchedules (active_schedules schedules_df d)) ([], []) hsorted
    (by intro a ha; cases ha)
  have hperm := optLoop_ids params units_df routes_df
    (compute_avg_costs params units_df routes_df) d _ _ _ hfin
  simp only [List.map_nil, List.nil_append] at hperm
  have hperm2 : (fin.1.map (fun a => a.schedule_id) ++
      fin.2.map (fun r => r.schedule_id)).Perm
      ((active_schedules schedules_df d).map (fun s => s.schedule_id)) :=
    hperm.trans ((sortSchedules_perm _).map _)
  refine ⟨fin.1, fin.2, ?_, hperm2, ?_⟩
  · simp only [optimize_assignments]
    rw [hfin]
  · have hlen := hperm2.length_eq
    simpa using hlen

/-- C9 counterexample: the claim fails as stated.  A schedule whose
`route_id` is absent from the route collection but which does not
operate on the target weekday is silently skipped — `optimize_assignments`
returns `ok` with empty lists instead of failing; and `calculate_metrics`
applied to an assignment whose `unit_id` is absent from the unit
collection also returns `ok` (the assignment is silently ignored in the
per-unit time maps) instead of failing with `NotFound`. -/
theorem C9_counterexample :
    optimize_assignments paramsA [unitA] [] [schedC9] mondayDate = .ok ([], []) ∧
    (∃ m, calculate_metrics paramsA [ghostAssignment] [unitA] [routeA] [schedA] mondayDate =
      .ok m) ∧
    schedC9.route_id ∉ ([] : List Route).map (fun r => r.route_id) ∧
    ghostAssignment.unit_id ∉ [unitA].map (fun u => u.unit_id) := by
  refine ⟨?_, ?_, by simp, by simp [ghostAssignment, unitA]⟩
  · simp [optimize_assignments, active_schedules, get_day_name, mondayDate, schedC9,
      parse_operating_days, sortSchedules, optLoop]
  · have htd : totalDistanceLoop [routeA] [ghostAssignment] = .ok (25.5 * 2 + 0) := by
      simp [totalDistanceLoop, ghostAssignment, routeA]
    exact ⟨_, by simp only [calculate_metrics, htd]; rfl⟩

/-- C9 amended: the engine fails with a `NotFound` kind only for
dangling references it actually dereferences — a schedule *active on
the target weekday* whose route id is absent makes `optimize_assignments`
fail, and an assignment whose route id is absent makes
`calculate_metrics` fail; but an inactive schedule with a dangling route
id is skipped without a lookup, and an assignment with an unknown
`unit_id` does not make `calculate_metrics` fail (see the
counterexample). -/
theorem C9_amended_notfound (params : OperationalParameters) (units_df : List TransportUnit)
    (routes_df : List Route) (schedules_df : List Schedule) (d : Datetime)
    (assignments : List Assignment) :
    ((∃ s ∈ active_schedules schedules_df d,
        routes_df.find? (fun r => r.route_id = s.route_id) = none) →
      ∃ msg, optimize_assignments params units_df routes_df schedules_df d =
        .error (.notFound msg)) ∧
    ((∃ a ∈ assignments, routes_df.find? (fun r => r.route_id = a.route_id) = none) →
      ∃ msg, calculate_metrics params assignments units_df routes_df schedules_df d =
        .error (.notFound msg)) := by
  constructor
  · intro h
    obtain ⟨s, hs, hfind⟩ := h
    have hs2 : s ∈ sortSchedules (active_schedules schedules_df d) :=
      ((sortSchedules_perm _).mem_iff).mpr hs
    obtain ⟨e, he⟩ := optLoop_route_missing params units_df routes_df
      (compute_avg_costs params units_df routes_df) d _ ([], []) ⟨s, hs2, hfind⟩
    cases e with
    | notFound msg =>
      refine ⟨msg, ?_⟩
      simp only [optimize_assignments]
      exact he
  · intro h
    obtain ⟨msg, hmsg⟩ := totalDistanceLoop_missing routes_df assignments h
    exact ⟨msg, by simp only [calculate_metrics, hmsg]⟩

/-- Witness for the amended C9 claim: a Monday-active schedule with the
dangling route `RX` makes the run fail, and an assignment with a
dangling route makes the metrics fail. -/
theorem C9_amended_notfound_witness :
    (∃ msg, optimize_assignments paramsA [unitA] [] [schedC9b] mondayDate =
      .error (.notFound msg)) ∧
    (∃ msg, calculate_metrics paramsA [ghostAssignment] [unitA] [] [schedA] mondayDate =
      .error (.notFound msg)) := by
  constructor
  · refine (C9_amended_notfound paramsA [unitA] [] [schedC9b] mondayDate []).1 ⟨schedC9b, ?_, rfl⟩
    simp [active_schedules, get_day_name, mondayDate, schedC9b, parse_operating_days]
  · exact (C9_amended_notfound paramsA [unitA] [] [schedA] mondayDate [ghostAssignment]).2
      ⟨ghostAssignment, List.mem_singleton.mpr rfl, rfl⟩

/-- Witness for C10 at Scenario A: one unit, one route, one Monday
schedule, Monday target date. -/
theorem C10_witness :
    ∃ A U, optimize_assignments paramsA [unitA] [routeA] [schedA] mondayDate = .ok (A, U) ∧
      (A.map (fun a => a.schedule_id) ++ U.map (fun r => r.schedule_id)).Perm
        ((active_schedules [schedA] mondayDate).map (fun s => s.schedule_id)) ∧
      A.length + U.length = (active_schedules [schedA] mondayDate).length := by
  refine C10_active_schedule_partition paramsA [unitA] [routeA] [schedA] mondayDate ?_
  intro s hs
  rcases List.mem_singleton.mp hs with rfl
  simp [schedA, routeA]

/-- C8: in `calculate_metrics`, every unit's working minutes are the sum
over its assignments of `max 0 (return − departure)`, its idle minutes
are `max 0 (max_working_hours_per_day × 60 − working)`; hence
`working + idle = max_working_hours_per_day × 60` whenever working is at
most that bound, and idle = 0 (never negative) otherwise. -/
theorem C8_idle_time_law (params : OperationalParameters) (assignments : List Assignment)
    (units_df : List TransportUnit) (routes_df : List Route) (schedules_df : List Schedule)
    (d : Datetime) (m : Metrics)
    (h : calculate_metrics params assignments units_df routes_df schedules_df d = .ok m) :
    ∀ u ∈ units_df, ∃ w idle : Int,
      List.lookup u.unit_id m.working_times = some w ∧
      List.lookup u.unit_id m.idle_times = some idle ∧
      w = ((assignments.filter (fun a => a.unit_id = u.unit_id)).map
        (fun a => max 0 (a.estimated_return_time - a.departure_time))).sum ∧
      idle = max 0 (params.max_working_hours_per_day * 60 - w) ∧
      (w ≤ params.max_working_hours_per_day * 60 →
        w + idle = params.max_working_hours_per_day * 60) ∧
      (params.max_working_hours_per_day * 60 < w → idle = 0) ∧
      0 ≤ idle := by
  intro u hu
  obtain ⟨hw, hi⟩ := calculate_metrics_times params assignments units_df routes_df schedules_df
    d m h u hu
  refine ⟨workingTime assignments u.unit_id,
    max 0 (params.max_working_hours_per_day * 60 - workingTime assignments u.unit_id),
    hw, hi, rfl, rfl, ?_, ?_, le_max_left 0 _⟩
  · intro hle
    rw [max_eq_right (by omega)]
    omega
  · intro hlt
    rw [max_eq_left (by omega)]

/-- Witness for C8: the Scenario A collections with an empty assignment
list. -/
theorem C8_idle_time_law_witness :
    ∃ m, calculate_metrics paramsA [] [unitA] [routeA] [schedA] mondayDate = .ok m ∧
      ∃ w idle : Int,
        List.lookup unitA.unit_id m.working_times = some w ∧
        List.lookup unitA.unit_id m.idle_times = some idle ∧
        w = ((([] : List Assignment).filter (fun a => a.unit_id = unitA.unit_id)).map
          (fun a => max 0 (a.estimated_return_time - a.departure_time))).sum ∧
        idle = max 0 (paramsA.max_working_hours_per_day * 60 - w) ∧
        (w ≤ paramsA.max_working_hours_per_day * 60 →
          w + idle = paramsA.max_working_hours_per_day * 60) ∧
        (paramsA.max_working_hours_per_day * 60 < w → idle = 0) ∧
        0 ≤ idle := by
  have htd : totalDistanceLoop [routeA] [] = .ok 0 := rfl
  obtain ⟨m, hm⟩ : ∃ m, calculate_metrics paramsA [] [unitA] [routeA] [schedA] mondayDate =
      .ok m := ⟨_, by simp only [calculate_metrics, htd]; rfl⟩
  exact ⟨m, hm, C8_idle_time_law paramsA [] [unitA] [routeA] [schedA] mondayDate m hm unitA
    (List.mem_singleton.mpr rfl)⟩

/-- C1: every Assignment of a successful run satisfies the data-model
invariants 1–6 against the same inputs (unit ids assumed unique, so the
assignment's unit id identifies one unit row): the looked-up unit's
eligible-route set contains the route (1), its capacity covers the
route's required capacity (2), its status is `Available` (3), some input
schedule matching the assignment operates on the target weekday (4), no
two Assignments for the same unit have overlapping intervals
`[departure, return + rest_buffer)` (5), and the unit's computed
availability time against the Assignments committed before this one is
at most the schedule's departure time (6). -/
theorem C1_invariants (params : OperationalParameters) (units_df : List TransportUnit)
    (routes_df : List Route) (schedules_df : List Schedule) (d : Datetime)
    (A : List Assignment) (U : List UnassignedRecord)
    (hok : optimize_assignments params units_df routes_df schedules_df d = .ok (A, U))
    (hids : (units_df.map (fun u => u.unit_id)).Nodup) :
    ∀ i (hi : i < A.length),
      ∃ u route s,
        units_df.find? (fun x => x.unit_id = (A.get ⟨i, hi⟩).unit_id) = some u ∧
        routes_df.find? (fun r => r.route_id = (A.get ⟨i, hi⟩).route_id) = some route ∧
        s ∈ schedules_df ∧ s.schedule_id = (A.get ⟨i, hi⟩).schedule_id ∧
        s.route_id = (A.get ⟨i, hi⟩).route_id ∧
        s.departure_time = (A.get ⟨i, hi⟩).departure_time ∧
        (A.get ⟨i, hi⟩).route_id ∈ parse_allowed_routes u.allowed_routes ∧
        route.required_capacity ≤ u.capacity ∧
        u.status = "Available" ∧
        get_day_name d ∈ parse_operating_days s.operating_days ∧
        (∀ j (hj : j < A.length), j ≠ i →
          (A.get ⟨j, hj⟩).unit_id = (A.get ⟨i, hi⟩).unit_id →
          ¬ ∃ t : Int,
            ((A.get ⟨i, hi⟩).departure_time ≤ t ∧
              t < (A.get ⟨i, hi⟩).estimated_return_time + params.minimum_rest_time_minutes) ∧
            ((A.get ⟨j, hj⟩).departure_time ≤ t ∧
              t < (A.get ⟨j, hj⟩).estimated_return_time + params.minimum_rest_time_minutes)) ∧
        ∃ t, calculate_unit_availability_time params (A.get ⟨i, hi⟩).unit_id route.origin
            (A.get ⟨i, hi⟩).departure_time (A.take i) units_df routes_df = some t ∧
          t ≤ (A.get ⟨i, hi⟩).departure_time := by
  simp only [optimize_assignments] at hok
  have hl : ∀ s ∈ sortSchedules (active_schedules schedules_df d),
      s ∈ schedules_df ∧ get_day_name d ∈ parse_operating_days s.operating_days := by
    intro s hs
    exact (mem_active_schedules _ _ _).mp (((sortSchedules_perm _).mem_iff).mp hs)
  have hinv : AssignInv params units_df routes_df schedules_df d A := by
    have hbase : AssignInv params units_df routes_df schedules_df d (([], []) :
        List Assignment × List UnassignedRecord).1 := by
      intro i hi
      simp at hi
    exact optLoop_invariant params units_df routes_df schedules_df
      (compute_avg_costs params units_df routes_df) d _ _ _ hl hok hbase
  -- pairwise separation of same-unit assignments, later vs earlier
  have hsep : ∀ p q (hp : p < A.length) (hq : q < A.length), q < p →
      (A.get ⟨q, hq⟩).unit_id = (A.get ⟨p, hp⟩).unit_id →
      ((A.get ⟨p, hp⟩).estimated_return_time + params.minimum_rest_time_minutes ≤
          (A.get ⟨q, hq⟩).departure_time ∨
        (A.get ⟨q, hq⟩).estimated_return_time + params.minimum_rest_time_minutes ≤
          (A.get ⟨p, hp⟩).departure_time) := by
    intro p q hp hq hqp hsame
    obtain ⟨s, route, u, -, -, -, -, hdep, -, hret, -, huid, hcheck, -⟩ := hinv p hp
    obtain ⟨-, -, -, -, hconf⟩ := check_constraints_feasible params u route s d (A.take p) hcheck
    have hqlen : q < (A.take p).length := by
      simp only [List.length_take]
      omega
    have hgetq : (A.take p).get ⟨q, hqlen⟩ = A.get ⟨q, hq⟩ := by
      simp [List.getElem_take]
    have hbmem : A.get ⟨q, hq⟩ ∈ A.take p := by
      rw [← hgetq]
      exact List.get_mem (A.take p) q hqlen
    have hbuid : (A.get ⟨q, hq⟩).unit_id = u.unit_id := by rw [hsame, ← huid]
    rcases hconf (A.get ⟨q, hq⟩) hbmem hbuid with hcase | hcase
    · left
      have : s.departure_time + calculate_cycle_time params route.estimated_time_minutes =
          (A.get ⟨p, hp⟩).estimated_return_time := by rw [hret, hdep]
      omega
    · right
      rw [hdep] at hcase
      exact hcase
  intro i hi
  obtain ⟨s, route, u, hs, hday, hsid, hrid, hdep, hroute, hret, humem, huid, hcheck, t, ht,
    htle⟩ := hinv i hi
  obtain ⟨hallow, hcap, hstat, -, -⟩ := check_constraints_feasible params u route s d
    (A.take i) hcheck
  obtain ⟨v, hv, hvid⟩ := find?_unit_self units_df u humem
  have hveq : v = u := by
    have hvmem := List.mem_of_find?_eq_some hv
    exact List.inj_on_of_nodup_map hids hvmem humem hvid
  have hfind : units_df.find? (fun x => x.unit_id = (A.get ⟨i, hi⟩).unit_id) = some u := by
    rw [← huid]
    rw [hveq] at hv
    exact hv
  have hrouteid : route.route_id = (A.get ⟨i, hi⟩).route_id := by
    have := List.find?_some hroute
    simpa using this
  refine ⟨u, route, s, hfind, hroute, hs, hsid, hrid, hdep, ?_, hcap, hstat, hday, ?_, ?_⟩
  · rw [← hrouteid]
    exact hallow
  · intro j hj hji hsame
    rintro ⟨t2, ⟨hi1, hi2⟩, ⟨hj1, hj2⟩⟩
    rcases Nat.lt_or_ge j i with hlt | hge
    · rcases hsep i j hi hj hlt hsame with hcase | hcase
      · omega
      · omega
    · have hlt2 : i < j := lt_of_le_of_ne hge (fun he => hji he.symm)
      rcases hsep j i hj hi hlt2 hsame.symm with hcase | hcase
      · omega
      · omega
  · exact ⟨t, by rw [← huid]; exact ht, htle⟩

/-- Witness for C1 at Scenario A: the run succeeds and its single
assignment satisfies all six invariants. -/
theorem C1_invariants_witness :
    ∃ A U, optimize_assignments paramsA [unitA] [routeA] [schedA] mondayDate = .ok (A, U) ∧
      ([unitA].map (fun u => u.unit_id)).Nodup ∧
      ∀ i (hi : i < A.length),
        ∃ u route s,
          [unitA].find? (fun x => x.unit_id = (A.get ⟨i, hi⟩).unit_id) = some u ∧
          [routeA].find? (fun r => r.route_id = (A.get ⟨i, hi⟩).route_id) = some route ∧
          s ∈ [schedA] ∧ s.schedule_id = (A.get ⟨i, hi⟩).schedule_id ∧
          s.route_id = (A.get ⟨i, hi⟩).route_id ∧
          s.departure_time = (A.get ⟨i, hi⟩).departure_time ∧
          (A.get ⟨i, hi⟩).route_id ∈ parse_allowed_routes u.allowed_routes ∧
          route.required_capacity ≤ u.capacity ∧
          u.status = "Available" ∧
          get_day_name mondayDate ∈ parse_operating_days s.operating_days ∧
          (∀ j (hj : j < A.length), j ≠ i →
            (A.get ⟨j, hj⟩).unit_id = (A.get ⟨i, hi⟩).unit_id →
            ¬ ∃ t : Int,
              ((A.get ⟨i, hi⟩).departure_time ≤ t ∧
                t < (A.get ⟨i, hi⟩).estimated_return_time + paramsA.minimum_rest_time_minutes) ∧
              ((A.get ⟨j, hj⟩).departure_time ≤ t ∧
                t < (A.get ⟨j, hj⟩).estimated_return_time + paramsA.minimum_rest_time_minutes)) ∧
          ∃ t, calculate_unit_availability_time paramsA (A.get ⟨i, hi⟩).unit_id route.origin
              (A.get ⟨i, hi⟩).departure_time (A.take i) [unitA] [routeA] = some t ∧
            t ≤ (A.get ⟨i, hi⟩).departure_time := by
  obtain ⟨a, hrun⟩ : ∃ a, optimize_assignments paramsA [unitA] [routeA] [schedA] mondayDate =
      .ok ([a], []) := by
    norm_num [optimize_assignments, optLoop, processSchedule, active_schedules, scheduleKeyLE,
      sortSchedules, insortSched, compute_avg_costs, listMean, groupUnits, feasibleGroup,
      scoreAll, commitAssignment, score_unit_for_schedule, score_unit_for_schedule_with_location,
      check_constraints, calculate_cycle_time, calculate_fuel_cost, calculate_capacity_score,
      calculate_distance_score, calculate_distance_score_location_based,
      calculate_availability_score, calculate_cost_score, get_deadhead_time,
      get_unit_last_location, get_destination_from_assignment, calculate_unit_availability_time,
      parse_allowed_routes, parse_operating_days, get_day_name, pymax, dedupFirst, dedupFirstAux,
      paramsA, unitA, routeA, schedA, mondayDate, weight_capacity, weight_distance,
      weight_availability, weight_cost, minutes_to_time_str, pad2, fmt2, roundHalfEven]
  have hids : ([unitA].map (fun u => u.unit_id)).Nodup := by simp
  exact ⟨[a], [], hrun, hids,
    C1_invariants paramsA [unitA] [routeA] [schedA] mondayDate [a] [] hrun hids⟩

/-- C5 counterexample: the claim fails as stated.  For a unit with no
prior assignments whose last (home) location equals the route origin,
`calculate_unit_availability_time` returns the minimum rest time (here
60), not minute 0: the code adds the rest time even when there is no
prior assignment. -/
theorem C5_counterexample :
    get_unit_last_location unitA.unit_id [] [unitA] [routeA] = some routeA.origin ∧
    calculate_unit_availability_time paramsA unitA.unit_id routeA.origin schedA.departure_time
      [] [unitA] [routeA] = some paramsA.minimum_rest_time_minutes ∧
    paramsA.minimum_rest_time_minutes = 60 ∧ (60 : Int) ≠ 0 := by
  refine ⟨?_, ?_, rfl, by decide⟩
  · simp [get_unit_last_location, unitA, routeA]
  · simp [calculate_unit_availability_time, get_unit_last_location, unitA, routeA, paramsA]

/-- C5 amended: `calculate_unit_availability_time` returns
`last_return + minimum_rest (+ deadhead when the last location differs
from the route origin)`, where `last_return` is 0 for a unit with no
prior assignments — so such a unit at the origin is available at minute
`minimum_rest`, not minute 0 — and otherwise the maximum estimated
return time over the unit's prior assignments. -/
theorem C5_availability_amended (params : OperationalParameters) (uid origin : String)
    (dep : Int) (A : List Assignment) (units_df : List TransportUnit) (routes_df : List Route)
    (t : Int)
    (h : calculate_unit_availability_time params uid origin dep A units_df routes_df = some t) :
    ∃ loc, get_unit_last_location uid A units_df routes_df = some loc ∧
      ∃ lastReturn : Int,
        ((A.filter (fun a => a.unit_id = uid) = [] ∧ lastReturn = 0) ∨
          (∃ b ∈ A.filter (fun a => a.unit_id = uid),
            lastReturn = b.estimated_return_time ∧
            ∀ c ∈ A.filter (fun a => a.unit_id = uid),
              c.estimated_return_time ≤ b.estimated_return_time)) ∧
        t = lastReturn + params.minimum_rest_time_minutes +
          (if loc ≠ origin then get_deadhead_time params loc origin else 0) := by
  unfold calculate_unit_availability_time at h
  cases hloc : get_unit_last_location uid A units_df routes_df with
  | none => simp [hloc] at h
  | some loc =>
    refine ⟨loc, rfl, ?_⟩
    cases hfil : A.filter (fun a => a.unit_id = uid) with
    | nil =>
      simp only [hloc, hfil] at h
      refine ⟨0, Or.inl ⟨rfl, rfl⟩, ?_⟩
      by_cases hne : loc ≠ origin
      · rw [if_pos hne] at h ⊢
        have := (Option.some.injEq _ _).mp h
        omega
      · rw [if_neg hne] at h ⊢
        have := (Option.some.injEq _ _).mp h
        omega
    | cons a rest =>
      simp only [hloc, hfil] at h
      refine ⟨(pymax (fun a => a.estimated_return_time) a rest).estimated_return_time,
        Or.inr ⟨pymax (fun a => a.estimated_return_time) a rest, ?_, rfl, ?_⟩, ?_⟩
      · exact pymax_mem _ a rest
      · intro c hc
        exact pymax_ge (fun a => a.estimated_return_time) a rest c hc
      · by_cases hne : loc ≠ origin
        · rw [if_pos hne] at h ⊢
          have := (Option.some.injEq _ _).mp h
          omega
        · rw [if_neg hne] at h ⊢
          have := (Option.some.injEq _ _).mp h
          omega

/-- Witness for the amended C5 claim at the Scenario A unit with no
prior assignments. -/
theorem C5_availability_amended_witness :
    ∃ loc, get_unit_last_location unitA.unit_id [] [unitA] [routeA] = some loc ∧
      ∃ lastReturn : Int,
        ((([] : List Assignment).filter (fun a => a.unit_id = unitA.unit_id) = [] ∧
            lastReturn = 0) ∨
          (∃ b ∈ ([] : List Assignment).filter (fun a => a.unit_id = unitA.unit_id),
            lastReturn = b.estimated_return_time ∧
            ∀ c ∈ ([] : List Assignment).filter (fun a => a.unit_id = unitA.unit_id),
              c.estimated_return_time ≤ b.estimated_return_time)) ∧
        (60 : Int) = lastReturn + paramsA.minimum_rest_time_minutes +
          (if loc ≠ routeA.origin then get_deadhead_time paramsA loc routeA.origin else 0) := by
  refine C5_availability_amended paramsA unitA.unit_id routeA.origin schedA.departure_time []
    [unitA] [routeA] 60 ?_
  simp [calculate_unit_availability_time, get_unit_last_location, unitA, routeA, paramsA]

/-- C2 counterexample: the claim fails as stated.  In Scenario A the
engine commits exactly one Assignment, but its estimated return time is
08:15 (minute 495 = 07:00 + 45 + 30): the cycle time does *not* double
the route's one-way time, so the claimed 09:00 (minute 540 =
07:00 + 45×2 + 30) is wrong. -/
theorem C2_counterexample :
    ∃ a, optimize_assignments paramsA [unitA] [routeA] [schedA] mondayDate = .ok ([a], []) ∧
      a.estimated_return_time = 495 ∧
      (540 : Int) = 420 + 45 * 2 + 30 ∧ (495 : Int) ≠ 540 := by
  norm_num [optimize_assignments, optLoop, processSchedule, active_schedules, scheduleKeyLE,
    sortSchedules, insortSched, compute_avg_costs, listMean, groupUnits, feasibleGroup,
    scoreAll, commitAssignment, score_unit_for_schedule, score_unit_for_schedule_with_location,
    check_constraints, calculate_cycle_time, calculate_fuel_cost, calculate_capacity_score,
    calculate_distance_score, calculate_distance_score_location_based,
    calculate_availability_score, calculate_cost_score, get_deadhead_time,
    get_unit_last_location, get_destination_from_assignment, calculate_unit_availability_time,
    parse_allowed_routes, parse_operating_days, get_day_name, pymax, dedupFirst, dedupFirstAux,
    paramsA, unitA, routeA, schedA, mondayDate, weight_capacity, weight_distance,
    weight_availability, weight_cost, minutes_to_time_str, pad2, fmt2, roundHalfEven]

/-- C2 amended: the cycle time used by the engine (both for committed
return times and for conflict detection in `check_constraints`) is the
route's one-way time *plus* the turnaround time, not doubled; in
Scenario A the engine commits exactly one Assignment whose estimated
return time is 45 + 30 minutes after 07:00, i.e. 08:15 (minute 495). -/
theorem C2_cycle_time_amended :
    (∀ (params : OperationalParameters) (t : Int),
      calculate_cycle_time params t = t + params.turnaround_time_minutes) ∧
    (∃ a, optimize_assignments paramsA [unitA] [routeA] [schedA] mondayDate = .ok ([a], []) ∧
      a.departure_time = 420 ∧
      a.estimated_return_time =
        420 + calculate_cycle_time paramsA routeA.estimated_time_minutes ∧
      a.estimated_return_time = 495) := by
  refine ⟨fun params t => rfl, ?_⟩
  norm_num [optimize_assignments, optLoop, processSchedule, active_schedules, scheduleKeyLE,
    sortSchedules, insortSched, compute_avg_costs, listMean, groupUnits, feasibleGroup,
    scoreAll, commitAssignment, score_unit_for_schedule, score_unit_for_schedule_with_location,
    check_constraints, calculate_cycle_time, calculate_fuel_cost, calculate_capacity_score,
    calculate_distance_score, calculate_distance_score_location_based,
    calculate_availability_score, calculate_cost_score, get_deadhead_time,
    get_unit_last_location, get_destination_from_assignment, calculate_unit_availability_time,
    parse_allowed_routes, parse_operating_days, get_day_name, pymax, dedupFirst, dedupFirstAux,
    paramsA, unitA, routeA, schedA, mondayDate, weight_capacity, weight_distance,
    weight_availability, weight_cost, minutes_to_time_str, pad2, fmt2, roundHalfEven]

/-- C3 counterexample: the claim fails as stated.  In Scenario B (unit
capacity 30 < required 40) the engine returns zero Assignments and one
UnassignedRecord, but its `reasons` list is empty — no capacity
violation is reported, because the diagnostic pass scores only the
units that already passed the basic feasibility check, and the
capacity-infeasible unit is in neither candidate group. -/
theorem C3_counterexample :
    ∃ rec, optimize_assignments paramsA [unitB] [routeA] [schedA] mondayDate = .ok ([], [rec]) ∧
      rec.reasons = [] ∧ unitB.capacity < routeA.required_capacity := by
  norm_num [optimize_assignments, optLoop, processSchedule, active_schedules, scheduleKeyLE,
    sortSchedules, insortSched, compute_avg_costs, listMean, groupUnits, feasibleGroup,
    scoreAll, commitAssignment, score_unit_for_schedule, score_unit_for_schedule_with_location,
    check_constraints, calculate_cycle_time, calculate_fuel_cost, calculate_capacity_score,
    calculate_distance_score, calculate_distance_score_location_based,
    calculate_availability_score, calculate_cost_score, get_deadhead_time,
    get_unit_last_location, get_destination_from_assignment, calculate_unit_availability_time,
    parse_allowed_routes, parse_operating_days, get_day_name, pymax, dedupFirst, dedupFirstAux,
    paramsA, unitA, unitB, routeA, schedA, mondayDate, weight_capacity, weight_distance,
    weight_availability, weight_cost, minutes_to_time_str, pad2, fmt2, roundHalfEven]

/-- C3 amended: when no candidate is feasible the engine scores only
the units of the two candidate groups (units that passed the basic
feasibility check), and the emitted UnassignedRecord's reasons are
distinct violation strings from those scores, truncated to at most 3;
consequently in Scenario B (sole unit's capacity 30 below the required
40) the engine returns zero Assignments and one UnassignedRecord whose
reasons list is empty — the capacity violation is not reported. -/
theorem C3_unassigned_reasons_amended :
    (∀ (params : OperationalParameters) (units_df : List TransportUnit)
        (routes_df : List Route) (ac : AvgCosts) (d : Datetime)
        (st st2 : List Assignment × List UnassignedRecord) (sched : Schedule)
        (rec : UnassignedRecord),
      processSchedule params units_df routes_df ac d st sched = .ok st2 →
      st2.2 = st.2 ++ [rec] →
      rec.reasons.length ≤ 3 ∧
      ∃ route, routes_df.find? (fun r => r.route_id = sched.route_id) = some route ∧
        ∀ msg ∈ rec.reasons, ∃ u, u ∈ units_df ∧
          (check_constraints params u route sched d st.1).1 = true ∧
          ∃ sc, score_unit_for_schedule_with_location params u route sched d ac st.1 units_df
              routes_df = some sc ∧ msg ∈ sc.constraints_violated) ∧
    (∃ rec, optimize_assignments paramsA [unitB] [routeA] [schedA] mondayDate =
      .ok ([], [rec]) ∧ rec.reasons = []) := by
  constructor
  · intro params units_df routes_df ac d st st2 sched rec h hr
    obtain ⟨-, -, -, hlen, route, hroute, hprov⟩ :=
      processSchedule_unassigned params units_df routes_df ac d st sched st2 rec h hr
    exact ⟨hlen, route, hroute, hprov⟩
  · norm_num [optimize_assignments, optLoop, processSchedule, active_schedules, scheduleKeyLE,
      sortSchedules, insortSched, compute_avg_costs, listMean, groupUnits, feasibleGroup,
      scoreAll, commitAssignment, score_unit_for_schedule, score_unit_for_schedule_with_location,
      check_constraints, calculate_cycle_time, calculate_fuel_cost, calculate_capacity_score,
      calculate_distance_score, calculate_distance_score_location_based,
      calculate_availability_score, calculate_cost_score, get_deadhead_time,
      get_unit_last_location, get_destination_from_assignment, calculate_unit_availability_time,
      parse_allowed_routes, parse_operating_days, get_day_name, pymax, dedupFirst, dedupFirstAux,
      paramsA, unitA, unitB, routeA, schedA, mondayDate, weight_capacity, weight_distance,
      weight_availability, weight_cost, minutes_to_time_str, pad2, fmt2, roundHalfEven]

/-- Witness for the amended C3 claim at the Scenario B schedule step. -/
theorem C3_unassigned_reasons_amended_witness :
    ∃ rec, processSchedule paramsA [unitB] [routeA]
        (compute_avg_costs paramsA [unitB] [routeA]) mondayDate ([], []) schedA =
        .ok ([], [rec]) ∧
      rec.reasons.length ≤ 3 ∧
      ∃ route, [routeA].find? (fun r => r.route_id = schedA.route_id) = some route ∧
        ∀ msg ∈ rec.reasons, ∃ u, u ∈ [unitB] ∧
          (check_constraints paramsA u route schedA mondayDate []).1 = true ∧
          ∃ sc, score_unit_for_schedule_with_location paramsA u route schedA mondayDate
              (compute_avg_costs paramsA [unitB] [routeA]) [] [unitB] [routeA] = some sc ∧
            msg ∈ sc.constraints_violated := by
  obtain ⟨rec, hps⟩ : ∃ rec, processSchedule paramsA [unitB] [routeA]
      (compute_avg_costs paramsA [unitB] [routeA]) mondayDate ([], []) schedA =
      .ok ([], [rec]) := by
    norm_num [processSchedule, compute_avg_costs, listMean, groupUnits, feasibleGroup,
      scoreAll, commitAssignment, score_unit_for_schedule, score_unit_for_schedule_with_location,
      check_constraints, calculate_cycle_time, calculate_fuel_cost, calculate_capacity_score,
      calculate_distance_score, calculate_distance_score_location_based,
      calculate_availability_score, calculate_cost_score, get_deadhead_time,
      get_unit_last_location, get_destination_from_assignment, calculate_unit_availability_time,
      parse_allowed_routes, parse_operating_days, get_day_name, pymax, dedupFirst, dedupFirstAux,
      paramsA, unitA, unitB, routeA, schedA, mondayDate, weight_capacity, weight_distance,
      weight_availability, weight_cost, minutes_to_time_str, pad2, fmt2, roundHalfEven]
  exact ⟨rec, hps, C3_unassigned_reasons_amended.1 paramsA [unitB] [routeA]
    (compute_avg_costs paramsA [unitB] [routeA]) mondayDate ([], []) ([], [rec]) schedA rec
    hps rfl⟩

/-- C6 counterexample: the claim fails as stated.  On the Scenario A
inputs the location-aware scorer produces capacity score 0.8, distance
score 1, availability score 1, cost score 0.9, location fit 1 and rest
fit 1; the implementation's total is 1.0225 (capacity and distance are
damped by 0.8), while the claimed formula (all of capacity, distance
and cost damped by 0.9) gives 1.0625. -/
theorem C6_counterexample :
    ∃ sc, score_unit_for_schedule_with_location paramsA unitA routeA schedA mondayDate
        (compute_avg_costs paramsA [unitA] [routeA]) [] [unitA] [routeA] = some sc ∧
      sc.capacity_score = 0.8 ∧ sc.distance_score = 1 ∧ sc.availability_score = 1 ∧
      sc.cost_score = 0.9 ∧
      sc.total_score = 1.0225 ∧
      spec_total_score_with_location sc.capacity_score sc.distance_score sc.availability_score
        sc.cost_score 1 1 = 1.0625 ∧
      sc.total_score ≠ spec_total_score_with_location sc.capacity_score sc.distance_score
        sc.availability_score sc.cost_score 1 1 := by
  norm_num [score_unit_for_schedule_with_location, check_constraints, compute_avg_costs,
    listMean, calculate_cycle_time, calculate_fuel_cost, calculate_capacity_score,
    calculate_distance_score_location_based, calculate_availability_score, calculate_cost_score,
    get_deadhead_time, get_unit_last_location, get_destination_from_assignment,
    calculate_unit_availability_time, parse_allowed_routes, parse_operating_days, get_day_name,
    pymax, paramsA, unitA, routeA, schedA, mondayDate, weight_capacity, weight_distance,
    weight_availability, weight_cost, minutes_to_time_str, pad2,
    spec_total_score_with_location]

/-- C6 amended: the location-aware scorer's total equals
`w_cap·capacity·0.8 + w_dist·distance·0.8 + w_avail·availability +
w_cost·cost·0.9 + 0.1·location_fit + 0.1·rest_fit` — capacity and
distance are damped by 0.8 (not 0.9), cost by 0.9 — with location fit
1.0 at the origin else 0.3, and rest fit 1.0 when the slack before
departure is at least the minimum rest, 0.5 when the slack is positive
but smaller, else 0.0. -/
theorem C6_total_score_amended (params : OperationalParameters) (u : TransportUnit) (r : Route)
    (s : Schedule) (d : Datetime) (ac : AvgCosts) (A : List Assignment)
    (units_df : List TransportUnit) (routes_df : List Route) (sc : AssignmentScore)
    (h : score_unit_for_schedule_with_location params u r s d ac A units_df routes_df = some sc) :
    ∃ loc t, get_unit_last_location u.unit_id A units_df routes_df = some loc ∧
      calculate_unit_availability_time params u.unit_id r.origin s.departure_time A units_df
        routes_df = some t ∧
      sc.capacity_score = calculate_capacity_score u.capacity r.required_capacity ∧
      sc.distance_score = calculate_distance_score_location_based loc r.origin r.distance_km
        (get_deadhead_time params loc r.origin) ∧
      sc.availability_score = calculate_availability_score u.status
        (decide (r.route_id ∈ parse_allowed_routes u.allowed_routes)) ∧
      sc.cost_score = calculate_cost_score (u.operational_cost_per_km * r.distance_km * 2)
        (calculate_fuel_cost params r.distance_km u.fuel_efficiency) ac.operational ac.fuel ∧
      sc.total_score =
        weight_capacity * sc.capacity_score * 0.8 +
        weight_distance * sc.distance_score * 0.8 +
        weight_availability * sc.availability_score +
        weight_cost * sc.cost_score * 0.9 +
        0.1 * (if loc = r.origin then 1 else 0.3) +
        0.1 * (if params.minimum_rest_time_minutes ≤ s.departure_time - t then (1 : Rat)
          else if 0 < s.departure_time - t then 0.5 else 0) := by
  simp only [score_unit_for_schedule_with_location] at h
  cases havail : calculate_unit_availability_time params u.unit_id r.origin s.departure_time A
      units_df routes_df with
  | none => simp [havail] at h
  | some t =>
    simp only [havail] at h
    cases hloc : get_unit_last_location u.unit_id A units_df routes_df with
    | none => simp [hloc] at h
    | some loc =>
      simp only [hloc, Option.some.injEq] at h
      subst h
      exact ⟨loc, t, rfl, rfl, rfl, rfl, rfl, rfl, rfl⟩

/-- Witness for the amended C6 claim on the Scenario A score. -/
theorem C6_total_score_amended_witness :
    ∃ sc, score_unit_for_schedule_with_location paramsA unitA routeA schedA mondayDate
        (compute_avg_costs paramsA [unitA] [routeA]) [] [unitA] [routeA] = some sc ∧
      ∃ loc t, get_unit_last_location unitA.unit_id [] [unitA] [routeA] = some loc ∧
        calculate_unit_availability_time paramsA unitA.unit_id routeA.origin
          schedA.departure_time [] [unitA] [routeA] = some t ∧
        sc.capacity_score = calculate_capacity_score unitA.capacity routeA.required_capacity ∧
        sc.distance_score = calculate_distance_score_location_based loc routeA.origin
          routeA.distance_km (get_deadhead_time paramsA loc routeA.origin) ∧
        sc.availability_score = calculate_availability_score unitA.status
          (decide (routeA.route_id ∈ parse_allowed_routes unitA.allowed_routes)) ∧
        sc.cost_score = calculate_cost_score
          (unitA.operational_cost_per_km * routeA.distance_km * 2)
          (calculate_fuel_cost paramsA routeA.distance_km unitA.fuel_efficiency)
          (compute_avg_costs paramsA [unitA] [routeA]).operational
          (compute_avg_costs paramsA [unitA] [routeA]).fuel ∧
        sc.total_score =
          weight_capacity * sc.capacity_score * 0.8 +
          weight_distance * sc.distance_score * 0.8 +
          weight_availability * sc.availability_score +
          weight_cost * sc.cost_score * 0.9 +
          0.1 * (if loc = routeA.origin then 1 else 0.3) +
          0.1 * (if paramsA.minimum_rest_time_minutes ≤ schedA.departure_time - t then (1 : Rat)
            else if 0 < schedA.departure_time - t then 0.5 else 0) := by
  obtain ⟨sc, hsc⟩ : ∃ sc, score_unit_for_schedule_with_location paramsA unitA routeA schedA
      mondayDate (compute_avg_costs paramsA [unitA] [routeA]) [] [unitA] [routeA] = some sc := by
    norm_num [score_unit_for_schedule_with_location, check_constraints, compute_avg_costs,
      listMean, calculate_cycle_time, calculate_fuel_cost, calculate_capacity_score,
      calculate_distance_score_location_based, calculate_availability_score,
      calculate_cost_score, get_deadhead_time, get_unit_last_location,
      get_destination_from_assignment, calculate_unit_availability_time, parse_allowed_routes,
      parse_operating_days, get_day_name, pymax, paramsA, unitA, routeA, schedA, mondayDate,
      weight_capacity, weight_distance, weight_availability, weight_cost, minutes_to_time_str,
      pad2]
  exact ⟨sc, hsc, C6_total_score_amended paramsA unitA routeA schedA mondayDate
    (compute_avg_costs paramsA [unitA] [routeA]) [] [unitA] [routeA] sc hsc⟩

/-- C4: for every schedule the engine commits, the candidate groups are
sublists of the caller-supplied unit order, and the committed unit is
the *first* feasible at-origin candidate attaining the maximum total
score when any at-origin candidate is feasible (elsewhere candidates
are not considered); only when no at-origin candidate is feasible is
the elsewhere group used, again choosing the first unit attaining its
maximum score. -/
theorem C4_locality_first_max (params : OperationalParameters) (units_df : List TransportUnit)
    (routes_df : List Route) (ac : AvgCosts) (d : Datetime)
    (st st2 : List Assignment × List UnassignedRecord) (sched : Schedule) (a : Assignment)
    (route : Route) (grouped : List TransportUnit × List TransportUnit)
    (fao few : List AssignmentScore)
    (h : processSchedule params units_df routes_df ac d st sched = .ok st2)
    (ha : st2.1 = st.1 ++ [a])
    (hroute : routes_df.find? (fun r => r.route_id = sched.route_id) = some route)
    (hg : groupUnits params units_df routes_df ac route sched d st.1 units_df = .ok grouped)
    (hfao : feasibleGroup params units_df routes_df ac route sched d st.1 route.origin
      sched.departure_time grouped.1 = .ok fao)
    (hfew : feasibleGroup params units_df routes_df ac route sched d st.1 route.origin
      sched.departure_time grouped.2 = .ok few) :
    grouped.1.Sublist units_df ∧ grouped.2.Sublist units_df ∧
    ((fao ≠ [] ∧
        ∃ pre post w, fao = pre ++ w :: post ∧ a.unit_id = w.unit_id ∧
          (∀ y ∈ pre, y.total_score < w.total_score) ∧
          (∀ y ∈ fao, y.total_score ≤ w.total_score)) ∨
      (fao = [] ∧ few ≠ [] ∧
        ∃ pre post w, few = pre ++ w :: post ∧ a.unit_id = w.unit_id ∧
          (∀ y ∈ pre, y.total_score < w.total_score) ∧
          (∀ y ∈ few, y.total_score ≤ w.total_score))) := by
  obtain ⟨hsub1, hsub2, -, -⟩ := groupUnits_props params units_df routes_df ac route sched d
    st.1 units_df grouped.1 grouped.2 (by rw [hg])
  refine ⟨hsub1, hsub2, ?_⟩
  simp only [processSchedule, hroute, hg, hfao, hfew] at h
  match hm : fao, hm2 : few with
  | b :: bs, few2 =>
    obtain ⟨unit, -, -, a', ha', -, -, huid, -⟩ := commitAssignment_ok _ _ _ _ _ _ _ h
    have h3 : [a'] = [a] := List.append_cancel_left (ha'.symm.trans ha)
    have haa : a' = a := by injection h3
    subst haa
    obtain ⟨pre, post, heq, hlt, hle⟩ := pymax_first_max (fun s => s.total_score) b bs
    exact Or.inl ⟨by simp, pre, post, pymax (fun s => s.total_score) b bs, heq, huid,
      hlt, fun y hy => hle y hy⟩
  | [], b :: bs =>
    obtain ⟨unit, -, -, a', ha', -, -, huid, -⟩ := commitAssignment_ok _ _ _ _ _ _ _ h
    have h3 : [a'] = [a] := List.append_cancel_left (ha'.symm.trans ha)
    have haa : a' = a := by injection h3
    subst haa
    obtain ⟨pre, post, heq, hlt, hle⟩ := pymax_first_max (fun s => s.total_score) b bs
    exact Or.inr ⟨rfl, by simp, pre, post, pymax (fun s => s.total_score) b bs, heq, huid,
      hlt, fun y hy => hle y hy⟩
  | [], [] =>
    cases hsc : scoreAll params units_df routes_df ac route sched d st.1
        (grouped.1 ++ grouped.2) with
    | error e => simp [hsc] at h
    | ok scores =>
      simp only [hsc, Except.ok.injEq] at h
      rw [← h] at ha
      simp at ha

/-- Witness for C4 at the Scenario A schedule step. -/
theorem C4_locality_first_max_witness :
    ∃ (st2 : List Assignment × List UnassignedRecord) (a : Assignment)
      (grouped : List TransportUnit × List TransportUnit) (fao few : List AssignmentScore),
      processSchedule paramsA [unitA] [routeA] (compute_avg_costs paramsA [unitA] [routeA])
        mondayDate ([], []) schedA = .ok st2 ∧
      st2.1 = ([] : List Assignment) ++ [a] ∧
      grouped.1.Sublist [unitA] ∧ grouped.2.Sublist [unitA] ∧
      ((fao ≠ [] ∧
          ∃ pre post w, fao = pre ++ w :: post ∧ a.unit_id = w.unit_id ∧
            (∀ y ∈ pre, y.total_score < w.total_score) ∧
            (∀ y ∈ fao, y.total_score ≤ w.total_score)) ∨
        (fao = [] ∧ few ≠ [] ∧
          ∃ pre post w, few = pre ++ w :: post ∧ a.unit_id = w.unit_id ∧
            (∀ y ∈ pre, y.total_score < w.total_score) ∧
            (∀ y ∈ few, y.total_score ≤ w.total_score))) := by
  have hroute : [routeA].find? (fun r => r.route_id = schedA.route_id) = some routeA := by
    simp [routeA, schedA]
  have hg : groupUnits paramsA [unitA] [routeA] (compute_avg_costs paramsA [unitA] [routeA])
      routeA schedA mondayDate [] [unitA] = .ok ([unitA], []) := by
    norm_num [groupUnits, score_unit_for_schedule, check_constraints, compute_avg_costs,
      listMean, calculate_cycle_time, calculate_fuel_cost, calculate_capacity_score,
      calculate_distance_score, calculate_availability_score, calculate_cost_score,
      get_unit_last_location, get_destination_from_assignment, parse_allowed_routes,
      parse_operating_days, get_day_name, paramsA, unitA, routeA, schedA, mondayDate,
      weight_capacity, weight_distance, weight_availability, weight_cost]
  obtain ⟨sc, hfao⟩ : ∃ sc, feasibleGroup paramsA [unitA] [routeA]
      (compute_avg_costs paramsA [unitA] [routeA]) routeA schedA mondayDate [] routeA.origin
      schedA.departure_time [unitA] = .ok [sc] := by
    norm_num [feasibleGroup, score_unit_for_schedule_with_location, check_constraints,
      compute_avg_costs, listMean, calculate_cycle_time, calculate_fuel_cost,
      calculate_capacity_score, calculate_distance_score_location_based,
      calculate_availability_score, calculate_cost_score, get_deadhead_time,
      get_unit_last_location, get_destination_from_assignment,
      calculate_unit_availability_time, parse_allowed_routes, parse_operating_days,
      get_day_name, pymax, paramsA, unitA, routeA, schedA, mondayDate, weight_capacity,
      weight_distance, weight_availability, weight_cost, minutes_to_time_str, pad2]
  have hfew : feasibleGroup paramsA [unitA] [routeA]
      (compute_avg_costs paramsA [unitA] [routeA]) routeA schedA mondayDate [] routeA.origin
      schedA.departure_time [] = .ok [] := rfl
  obtain ⟨a, hps⟩ : ∃ a, processSchedule paramsA [unitA] [routeA]
      (compute_avg_costs paramsA [unitA] [routeA]) mondayDate ([], []) schedA =
      .ok ([a], []) := by
    norm_num [processSchedule, compute_avg_costs, listMean, groupUnits, feasibleGroup,
      scoreAll, commitAssignment, score_unit_for_schedule, score_unit_for_schedule_with_location,
      check_constraints, calculate_cycle_time, calculate_fuel_cost, calculate_capacity_score,
      calculate_distance_score, calculate_distance_score_location_based,
      calculate_availability_score, calculate_cost_score, get_deadhead_time,
      get_unit_last_location, get_destination_from_assignment, calculate_unit_availability_time,
      parse_allowed_routes, parse_operating_days, get_day_name, pymax, dedupFirst, dedupFirstAux,
      paramsA, unitA, routeA, schedA, mondayDate, weight_capacity, weight_distance,
      weight_availability, weight_cost, minutes_to_time_str, pad2, fmt2, roundHalfEven]
  obtain ⟨hsub1, hsub2, hconc⟩ := C4_locality_first_max paramsA [unitA] [routeA]
    (compute_avg_costs paramsA [unitA] [routeA]) mondayDate ([], []) ([a], []) schedA a routeA
    ([unitA], []) [sc] [] hps rfl hroute hg hfao hfew
  exact ⟨([a], []), a, ([unitA], []), [sc], [], hps, rfl, hsub1, hsub2, hconc⟩

/-- `find?` is stable under appending on the right once the left part
already yields a hit. -/
theorem find?_append_stable {α : Type} (p : α → Bool) (l₁ l₂ : List α) (v : α)
    (h : l₁.find? p = some v) : (l₁ ++ l₂).find? p = some v := by
  induction l₁ with
  | nil => cases h
  | cons x xs ih =>
    by_cases hx : p x = true
    · rw [List.find?_cons_of_pos _ hx] at h
      rw [List.cons_append, List.find?_cons_of_pos _ hx]
      exact h
    · rw [List.find?_cons_of_neg _ (by simpa using hx)] at h
      rw [List.cons_append, List.find?_cons_of_neg _ (by simpa using hx)]
      exact ih h

/-- With no committed assignments yet, a unit's last location does not
change when more units are appended to the collection. -/
theorem get_unit_last_location_append (uid : String) (units_df l : List TransportUnit)
    (routes_df : List Route) (loc : String)
    (h : get_unit_last_location uid [] units_df routes_df = some loc) :
    get_unit_last_location uid [] (units_df ++ l) routes_df = some loc := by
  simp only [get_unit_last_location, List.filter_nil] at h ⊢
  cases hf : units_df.find? (fun u => u.unit_id = uid) with
  | none => rw [hf] at h; cases h
  | some v =>
    rw [hf] at h
    rw [find?_append_stable _ _ _ _ hf]
    exact h

/-- With no committed assignments yet, a unit's availability time does
not change when more units are appended to the collection. -/
theorem calculate_unit_availability_time_append (params : OperationalParameters)
    (uid ori : String) (dep : Int) (units_df l : List TransportUnit) (routes_df : List Route)
    (t : Int)
    (h : calculate_unit_availability_time params uid ori dep [] units_df routes_df = some t) :
    calculate_unit_availability_time params uid ori dep [] (units_df ++ l) routes_df = some t := by
  simp only [calculate_unit_availability_time, List.filter_nil] at h ⊢
  cases hloc : get_unit_last_location uid [] units_df routes_df with
  | none => rw [hloc] at h; cases h
  | some loc =>
    rw [hloc] at h
    rw [get_unit_last_location_append uid units_df l routes_df loc hloc]
    exact h

/-- A unit that passes the basic constraint check and the availability
gate receives a feasible location-aware score (whatever the average
cost baselines are). -/
theorem score_with_location_feasible (params : OperationalParameters) (u : TransportUnit)
    (r : Route) (s : Schedule) (d : Datetime) (ac : AvgCosts) (A : List Assignment)
    (units_df : List TransportUnit) (routes_df : List Route) (t : Int)
    (ht : calculate_unit_availability_time params u.unit_id r.origin s.departure_time A
        units_df routes_df = some t)
    (htle : t ≤ s.departure_time)
    (hcheck : (check_constraints params u r s d A).1 = true) :
    ∃ sc, score_unit_for_schedule_with_location params u r s d ac A units_df routes_df =
        some sc ∧ sc.is_feasible = true := by
  obtain ⟨loc, hloc⟩ : ∃ loc, get_unit_last_location u.unit_id A units_df routes_df = some loc := by
    simp only [calculate_unit_availability_time] at ht
    cases hl : get_unit_last_location u.unit_id A units_df routes_df with
    | none => rw [hl] at ht; cases ht
    | some loc => exact ⟨loc, rfl⟩
  have hnl : ¬ s.departure_time < t := not_lt.mpr htle
  simp only [score_unit_for_schedule_with_location, ht, hloc]
  refine ⟨_, rfl, ?_⟩
  simp [hnl, hcheck]

/-- If some unit of the collection passes the basic check and the
availability gate for the schedule's route, a successful schedule step
must commit an assignment: the unassigned branch is unreachable. -/
theorem processSchedule_commits (params : OperationalParameters) (units_df : List TransportUnit)
    (routes_df : List Route) (ac : AvgCosts) (d : Datetime)
    (st : List Assignment × List UnassignedRecord) (sched : Schedule) (route : Route)
    (st2 : List Assignment × List UnassignedRecord)
    (hroute : routes_df.find? (fun r => r.route_id = sched.route_id) = some route)
    (h : processSchedule params units_df routes_df ac d st sched = .ok st2)
    (u : TransportUnit) (hu : u ∈ units_df)
    (hcheck : (check_constraints params u route sched d st.1).1 = true)
    (t : Int)
    (ht : calculate_unit_availability_time params u.unit_id route.origin sched.departure_time
        st.1 units_df routes_df = some t)
    (htle : t ≤ sched.departure_time) :
    ∃ a, st2.1 = st.1 ++ [a] := by
  obtain ⟨sc, hsc, hfeas⟩ := score_with_location_feasible params u route sched d ac st.1
    units_df routes_df t ht htle hcheck
  simp only [processSchedule, hroute] at h
  cases hgr : groupUnits params units_df routes_df ac route sched d st.1 units_df with
  | error e => simp [hgr] at h
  | ok grouped =>
    simp only [hgr] at h
    have hplace := groupUnits_placement params units_df routes_df ac route sched d st.1
      units_df grouped.1 grouped.2 (by rw [hgr]) u hu hcheck
    cases hfao : feasibleGroup params units_df routes_df ac route sched d st.1 route.origin
        sched.departure_time grouped.1 with
    | error e => simp [hfao] at h
    | ok fao =>
      simp only [hfao] at h
      cases hfew : feasibleGroup params units_df routes_df ac route sched d st.1 route.origin
          sched.departure_time grouped.2 with
      | error e => simp [hfew] at h
      | ok few =>
        simp only [hfew] at h
        match hm : fao, hm2 : few with
        | b :: bs, few2 =>
          obtain ⟨unit, -, -, a, ha, -⟩ := commitAssignment_ok _ _ _ _ _ _ _ h
          exact ⟨a, ha⟩
        | [], b :: bs =>
          obtain ⟨unit, -, -, a, ha, -⟩ := commitAssignment_ok _ _ _ _ _ _ _ h
          exact ⟨a, ha⟩
        | [], [] =>
          rcases hplace with hin | hin
          · exact absurd rfl (feasibleGroup_ne_nil params units_df routes_df ac route sched d
              st.1 route.origin sched.departure_time grouped.1 [] (hm ▸ hfao) u hin t ht htle
              sc hsc hfeas)
          · exact absurd rfl (feasibleGroup_ne_nil params units_df routes_df ac route sched d
              st.1 route.origin sched.departure_time grouped.2 [] (hm2 ▸ hfew) u hin t ht htle
              sc hsc hfeas)

/-- C7 counterexample: the claim fails as stated.  With routes `R1`
(X→Y, required 40) and `R2` (Y→Z, required 60), Monday schedules at
07:00 (`R1`) and 09:15 (`R2`), and a 600-minute `X`–`Y` deadhead, unit
`A` alone serves both schedules (2 assignments: it ends `R1` at `Y` and
is just in time for `R2`).  Adding unit `B` — status `Available`, both
routes in its eligible set — steals `R1` (tighter capacity fit, higher
score), leaves `A` stranded at `X` behind the 600-minute deadhead, and
`B` itself fails `R2`'s required capacity: only 1 assignment remains. -/
theorem C7_counterexample :
    ∃ A1 U1 A2 U2,
      optimize_assignments paramsC7 [unitC7A] [routeC71, routeC72] [schedC71, schedC72]
        mondayDate = .ok (A1, U1) ∧
      optimize_assignments paramsC7 [unitC7A, unitC7B] [routeC71, routeC72]
        [schedC71, schedC72] mondayDate = .ok (A2, U2) ∧
      unitC7B.status = "Available" ∧
      "R1" ∈ parse_allowed_routes unitC7B.allowed_routes ∧
      "R2" ∈ parse_allowed_routes unitC7B.allowed_routes ∧
      A1.length = 2 ∧ A2.length = 1 ∧ A2.length < A1.length := by
  have hfr1 : List.find? (fun r => r.route_id = "R1") [routeC71, routeC72] = some routeC71 := by
    simp [routeC71, routeC72]
  have hfr2 : List.find? (fun r => r.route_id = "R2") [routeC71, routeC72] = some routeC72 := by
    simp [routeC71, routeC72]
  simp only [routeC71, routeC72] at hfr1 hfr2
  obtain ⟨a1, a2, h1⟩ : ∃ a1 a2, optimize_assignments paramsC7 [unitC7A]
      [routeC71, routeC72] [schedC71, schedC72] mondayDate = .ok ([a1, a2], []) := by
    norm_num [hfr1, hfr2, optimize_assignments, optLoop, processSchedule, active_schedules,
      scheduleKeyLE, sortSchedules, insortSched, compute_avg_costs, listMean, groupUnits,
      feasibleGroup, scoreAll, commitAssignment, score_unit_for_schedule,
      score_unit_for_schedule_with_location, check_constraints, calculate_cycle_time,
      calculate_fuel_cost, calculate_capacity_score, calculate_distance_score,
      calculate_distance_score_location_based, calculate_availability_score,
      calculate_cost_score, get_deadhead_time, get_unit_last_location,
      get_destination_from_assignment, calculate_unit_availability_time, parse_allowed_routes,
      parse_operating_days, get_day_name, pymax, dedupFirst, dedupFirstAux,
      List.lookup, List.filter, paramsC7, unitC7A, unitC7B, routeC71, routeC72, schedC71,
      schedC72,
      mondayDate, weight_capacity, weight_distance, weight_availability, weight_cost,
      minutes_to_time_str, pad2, fmt2, roundHalfEven]
  have hfuA : List.find? (fun x => x.unit_id = "A") [unitC7A, unitC7B] = some unitC7A := by
    simp [unitC7A, unitC7B]
  have hfuB : List.find? (fun x => x.unit_id = "B") [unitC7A, unitC7B] = some unitC7B := by
    simp [unitC7A, unitC7B]
  simp only [unitC7A, unitC7B] at hfuA hfuB
  have hBA : ("B" = "A") = False := by simp
  have hAB : ("A" = "B") = False := by simp
  have hXY : ("X" = "Y") = False := by simp
  have hYX : ("Y" = "X") = False := by simp
  have hYZ : ("Y" = "Z") = False := by simp
  have hZY : ("Z" = "Y") = False := by simp
  have hXZ : ("X" = "Z") = False := by simp
  have hZX : ("Z" = "X") = False := by simp
  have hR12 : ("R1" = "R2") = False := by simp
  have hR21 : ("R2" = "R1") = False := by simp
  obtain ⟨b1, rec1, h2⟩ : ∃ b1 rec1, optimize_assignments paramsC7 [unitC7A, unitC7B]
      [routeC71, routeC72] [schedC71, schedC72] mondayDate = .ok ([b1], [rec1]) := by
    norm_num [hfr1, hfr2, hfuA, hfuB, hBA, hAB, hXY, hYX, hYZ, hZY, hXZ, hZX, hR12, hR21,
      optimize_assignments, optLoop, processSchedule, active_schedules,
      scheduleKeyLE, sortSchedules, insortSched, compute_avg_costs, listMean, groupUnits,
      feasibleGroup, scoreAll, commitAssignment, score_unit_for_schedule,
      score_unit_for_schedule_with_location, check_constraints, calculate_cycle_time,
      calculate_fuel_cost, calculate_capacity_score, calculate_distance_score,
      calculate_distance_score_location_based, calculate_availability_score,
      calculate_cost_score, get_deadhead_time, get_unit_last_location,
      get_destination_from_assignment, calculate_unit_availability_time, parse_allowed_routes,
      parse_operating_days, get_day_name, pymax, dedupFirst, dedupFirstAux,
      List.lookup, List.filter_cons, paramsC7, unitC7A, unitC7B, routeC71, routeC72, schedC71,
      schedC72,
      mondayDate, weight_capacity, weight_distance, weight_availability, weight_cost,
      minutes_to_time_str, pad2, fmt2, roundHalfEven]
  exact ⟨[a1, a2], [], [b1], [rec1], h1, h2, rfl, by simp [parse_allowed_routes, unitC7B],
    by simp [parse_allowed_routes, unitC7B], rfl, rfl, by simp⟩

/-- C7 amended: monotonicity fails in general (see the counterexample:
a new unit can win an early schedule and strand the original winner for
a later one), but it holds whenever at most one schedule is active on
the target date: appending one more unit to the collection, with
routes, schedules, parameters and target date fixed, never decreases
the number of Assignments returned by `optimize_assignments`. -/
theorem C7_single_schedule_monotone (params : OperationalParameters)
    (units_df : List TransportUnit) (routes_df : List Route)
    (schedules_df : List Schedule) (d : Datetime) (newu : TransportUnit)
    (A1 A2 : List Assignment) (U1 U2 : List UnassignedRecord)
    (hone : (active_schedules schedules_df d).length ≤ 1)
    (h1 : optimize_assignments params units_df routes_df schedules_df d = .ok (A1, U1))
    (h2 : optimize_assignments params (units_df ++ [newu]) routes_df schedules_df d =
      .ok (A2, U2)) :
    A1.length ≤ A2.length := by
  cases hacts : active_schedules schedules_df d with
  | nil =>
    simp only [optimize_assignments, hacts, sortSchedules, optLoop, Except.ok.injEq,
      Prod.mk.injEq] at h1
    obtain ⟨hA1, -⟩ := h1
    simp [← hA1]
  | cons s rest =>
    have hrest : rest = [] := by
      rw [hacts] at hone
      simpa using hone
    subst hrest
    simp only [optimize_assignments, hacts, sortSchedules, insortSched, optLoop] at h1 h2
    cases hps1 : processSchedule params units_df routes_df
        (compute_avg_costs params units_df routes_df) d ([], []) s with
    | error e => simp [hps1] at h1
    | ok st1 =>
      simp only [hps1, Except.ok.injEq] at h1
      cases hps2 : processSchedule params (units_df ++ [newu]) routes_df
          (compute_avg_costs params (units_df ++ [newu]) routes_df) d ([], []) s with
      | error e => simp [hps2] at h2
      | ok st2 =>
        simp only [hps2, Except.ok.injEq] at h2
        rcases processSchedule_shape params units_df routes_df
            (compute_avg_costs params units_df routes_df) d ([], []) s st1 hps1 with
          ⟨a, hst1, -⟩ | ⟨rec, hst1, -⟩
        · obtain ⟨route, hroute, -, -, -, -, u, hu, -, hcheck, t, ht, htle⟩ :=
            processSchedule_commit params units_df routes_df
              (compute_avg_costs params units_df routes_df) d ([], []) s st1 a hps1
              (by rw [hst1])
          obtain ⟨a2, ha2⟩ := processSchedule_commits params (units_df ++ [newu]) routes_df
            (compute_avg_costs params (units_df ++ [newu]) routes_df) d ([], []) s route st2
            hroute hps2 u (List.mem_append_left _ hu) hcheck t
            (calculate_unit_availability_time_append params u.unit_id route.origin
              s.departure_time units_df [newu] routes_df t ht) htle
          rw [h1] at hst1
          rw [h2] at ha2
          simp only [Prod.mk.injEq, List.nil_append] at hst1 ha2
          simp [hst1.1, ha2]
        · rw [h1] at hst1
          simp only [Prod.mk.injEq] at hst1
          simp [hst1.1]

/-- Closed witness for the amended C7 theorem: Scenario A (one Monday
schedule) with the low-capacity Scenario B unit appended; both runs
commit exactly one Assignment, so the count does not decrease. -/
theorem C7_single_schedule_monotone_witness :
    ∃ A1 U1 A2 U2,
      (active_schedules [schedA] mondayDate).length ≤ 1 ∧
      optimize_assignments paramsA [unitA] [routeA] [schedA] mondayDate = .ok (A1, U1) ∧
      optimize_assignments paramsA ([unitA] ++ [unitB]) [routeA] [schedA] mondayDate =
        .ok (A2, U2) ∧
      A1.length ≤ A2.length := by
  obtain ⟨a1, h1⟩ : ∃ a1, optimize_assignments paramsA [unitA] [routeA] [schedA] mondayDate =
      .ok ([a1], []) := by
    norm_num [optimize_assignments, optLoop, processSchedule, active_schedules, scheduleKeyLE,
      sortSchedules, insortSched, compute_avg_costs, listMean, groupUnits, feasibleGroup,
      scoreAll, commitAssignment, score_unit_for_schedule, score_unit_for_schedule_with_location,
      check_constraints, calculate_cycle_time, calculate_fuel_cost, calculate_capacity_score,
      calculate_distance_score, calculate_distance_score_location_based,
      calculate_availability_score, calculate_cost_score, get_deadhead_time,
      get_unit_last_location, get_destination_from_assignment, calculate_unit_availability_time,
      parse_allowed_routes, parse_operating_days, get_day_name, pymax, dedupFirst, dedupFirstAux,
      paramsA, unitA, routeA, schedA, mondayDate, weight_capacity, weight_distance,
      weight_availability, weight_cost, minutes_to_time_str, pad2, fmt2, roundHalfEven]
  obtain ⟨a2, h2⟩ : ∃ a2, optimize_assignments paramsA [unitA, unitB] [routeA] [schedA]
      mondayDate = .ok ([a2], []) := by
    norm_num [optimize_assignments, optLoop, processSchedule, active_schedules, scheduleKeyLE,
      sortSchedules, insortSched, compute_avg_costs, listMean, groupUnits, feasibleGroup,
      scoreAll, commitAssignment, score_unit_for_schedule, score_unit_for_schedule_with_location,
      check_constraints, calculate_cycle_time, calculate_fuel_cost, calculate_capacity_score,
      calculate_distance_score, calculate_distance_score_location_based,
      calculate_availability_score, calculate_cost_score, get_deadhead_time,
      get_unit_last_location, get_destination_from_assignment, calculate_unit_availability_time,
      parse_allowed_routes, parse_operating_days, get_day_name, pymax, dedupFirst, dedupFirstAux,
      paramsA, unitA, unitB, routeA, schedA, mondayDate, weight_capacity, weight_distance,
      weight_availability, weight_cost, minutes_to_time_str, pad2, fmt2, roundHalfEven]
  have hone : (active_schedules [schedA] mondayDate).length ≤ 1 := by
    simp [active_schedules, schedA, mondayDate, get_day_name, parse_operating_days]
  exact ⟨[a1], [], [a2], [], hone, h1, h2,
    C7_single_schedule_monotone paramsA [unitA] [routeA] [schedA] mondayDate unitB
      [a1] [a2] [] [] hone h1 h2⟩

end SpkSchedule
